import Mathlib

/-!
Verification development for the path-planning core of the MDPGroup18
robot-navigation repository (algorithm-service).

The definitions below are a shallow embedding of the Python sources:
  src/algorithm-service/src/entities/entity.py   (CellState, Obstacle, Grid)
  src/algorithm-service/src/algorithms/algo.py   (MazeSolver)
  src/algorithm-service/src/tools/commands.py    (CommandGenerator)
  src/algorithm-service/src/tools/consts.py      (constants)
  src/algorithm-service/api/routes/pathfinding.py (find_path route)

Python integers are modelled as `Int`, Python floats that only ever hold
exact small values (costs, 1e9 sentinels) as `Rat`.  Python dictionaries
are modelled as functions into `Option`; Python `heapq` is modelled as a
list from which the lexicographically least tuple is removed (a binary
heap always pops the exact minimum of the tuple order, and entries that
compare equal are structurally identical here, so the two agree).
Loops whose termination is not structural carry an explicit fuel
parameter; exceptions are modelled with `Except String`.

The repository's `src/tools/movement.py` and `src/entities/robot.py` are
not part of the given sources (only their callers are), so `Direction`,
`Motion`, `MOVE_DIRECTION` and the robot start state are modelled from
the specification, as marked on each such definition.
-/

/-- Modelled from the spec: `src/tools/movement.py` is missing from the
given sources.  Direction is the enumeration {N, E, S, W, SKIP},
numerically encoded as {0, 2, 4, 6, 8}. -/
inductive Direction where
  | NORTH
  | EAST
  | SOUTH
  | WEST
  | SKIP
deriving DecidableEq, Repr, Fintype

/-- Numeric encoding of `Direction` ({0,2,4,6,8} per the spec). -/
def Direction.val : Direction → Int
  | .NORTH => 0
  | .EAST => 2
  | .SOUTH => 4
  | .WEST => 6
  | .SKIP => 8

/-- Modelled from the spec: turn cost between two directions is the
minimum number of 90-degree rotations required (0, 1, or 2). -/
def Direction.turn_cost (a b : Direction) : Int :=
  min ((a.val - b.val).natAbs) (8 - (a.val - b.val).natAbs) / 2

/-- Modelled from the spec: the motion primitives of `src/tools/movement.py`
(FORWARD, REVERSE, four named 3-point turns, CAPTURE). -/
inductive Motion where
  | FORWARD
  | REVERSE
  | FORWARD_LEFT_TURN
  | FORWARD_RIGHT_TURN
  | REVERSE_LEFT_TURN
  | REVERSE_RIGHT_TURN
  | CAPTURE
deriving DecidableEq, Repr

/-- Modelled from the spec: `reverse_cost` is 1 for REVERSE and the two
REVERSE turns, else 0. -/
def Motion.reverse_cost : Motion → Int
  | .REVERSE => 1
  | .REVERSE_LEFT_TURN => 1
  | .REVERSE_RIGHT_TURN => 1
  | _ => 0

/-- Modelled from the spec: opposite primitive (FORWARD and REVERSE swap,
FORWARD_LEFT_TURN and REVERSE_RIGHT_TURN swap, FORWARD_RIGHT_TURN and
REVERSE_LEFT_TURN swap). -/
def Motion.opposite_motion : Motion → Motion
  | .FORWARD => .REVERSE
  | .REVERSE => .FORWARD
  | .FORWARD_LEFT_TURN => .REVERSE_RIGHT_TURN
  | .FORWARD_RIGHT_TURN => .REVERSE_LEFT_TURN
  | .REVERSE_LEFT_TURN => .FORWARD_RIGHT_TURN
  | .REVERSE_RIGHT_TURN => .FORWARD_LEFT_TURN
  | .CAPTURE => .CAPTURE

/-- Modelled from the spec: FORWARD and REVERSE are combinable, turns and
CAPTURE are not. -/
def Motion.is_combinable : Motion → Bool
  | .FORWARD => true
  | .REVERSE => true
  | _ => false

/-- Modelled from the spec: the four unit axis vectors bound to cardinal
directions (N maps to (0,+1), E to (+1,0), S to (0,-1), W to (-1,0)). -/
def MOVE_DIRECTION : List (Int × Int × Direction) :=
  [(0, 1, .NORTH), (1, 0, .EAST), (0, -1, .SOUTH), (-1, 0, .WEST)]

/-- Constants from src/tools/consts.py. -/
def EXPANDED_CELL : Int := 1

def ARENA_WIDTH : Int := 20

def ARENA_HEIGHT : Int := 20

def OBSTACLE_SIZE : Int := 1

def ITERATIONS : Nat := 5000

def SAFE_COST : Int := 1000

def SCREENSHOT_COST : Int := 100

def DISTANCE_COST : Int := 1000

def TURN_FACTOR : Int := 5

def REVERSE_FACTOR : Int := 0

def TURN_DISPLACEMENT : Int × Int := (2, 1)

def OFFSET : Int := 1

def TURN_PADDING : Int := (OFFSET + 1) * EXPANDED_CELL

def MID_TURN_PADDING : Int := (OFFSET + 1) * EXPANDED_CELL

def PADDING : Int := (OFFSET + 1) * EXPANDED_CELL

def MIN_CLEARANCE : Int := 1

def W_COMMAND_FLAG : Int := 0

/-- A screenshot identifier: Python stores either the obstacle id (int)
or the formatted tag (str) in `CellState.screenshot_id`. -/
inductive SId where
  | num (n : Int)
  | tag (s : String)
deriving DecidableEq, Repr

/-- CellState from entity.py: position, direction, optional screenshot id
and a penalty.  Equality is on all fields, matching the fact that the
Python objects in one solve are distinguishable exactly by these fields
(CellState defines no custom eq, and the solver never creates two
distinct simultaneously-live objects agreeing on all of them). -/
structure CellState where
  x : Int
  y : Int
  direction : Direction
  screenshot_id : Option SId := none
  penalty : Int := 0
deriving DecidableEq, Repr

/-- CellState.is_eq: compare x, y, direction only. -/
def CellState.is_eq (c : CellState) (x y : Int) (d : Direction) : Bool :=
  c.x == x && c.y == y && c.direction == d

/-- CellState.set_screenshot. -/
def CellState.set_screenshot (c : CellState) (s : SId) : CellState :=
  { c with screenshot_id := some s }

/-- Obstacle from entity.py. -/
structure Obstacle where
  x : Int
  y : Int
  direction : Direction
  obstacle_id : Int
deriving DecidableEq, Repr

/-- Obstacle.__eq__: same x, y and direction (the id is ignored). -/
def Obstacle.eqObs (a b : Obstacle) : Bool :=
  a.x == b.x && a.y == b.y && a.direction == b.direction

/-- Obstacle.is_valid_position: 0 < x < ARENA_WIDTH - 1 and
0 < y < ARENA_HEIGHT - 1. -/
def Obstacle.is_valid_position (x y : Int) : Bool :=
  decide (0 < x) && decide (x < ARENA_WIDTH - 1) &&
  decide (0 < y) && decide (y < ARENA_HEIGHT - 1)

/-- Obstacle.get_view_state: the four candidate viewing poses (with
penalties) in source order, filtered by `is_valid_position`. -/
def Obstacle.get_view_state (ob : Obstacle) : List CellState :=
  let mk : Int × Int → Direction → Int → CellState := fun p d c =>
    { x := p.1, y := p.2, direction := d,
      screenshot_id := some (SId.num ob.obstacle_id), penalty := c }
  let pick : List (Int × Int) → Direction → List CellState := fun ps d =>
    (ps.zip [SCREENSHOT_COST + DISTANCE_COST, SCREENSHOT_COST + DISTANCE_COST,
             0, DISTANCE_COST]).filterMap
      (fun pc =>
        if Obstacle.is_valid_position pc.1.1 pc.1.2 then
          some (mk pc.1 d pc.2)
        else none)
  match ob.direction with
  | .NORTH =>
      pick [(ob.x - 1, ob.y + MIN_CLEARANCE + OBSTACLE_SIZE + OFFSET),
            (ob.x + 1, ob.y + MIN_CLEARANCE + OBSTACLE_SIZE + OFFSET),
            (ob.x, ob.y + MIN_CLEARANCE + 1 + OBSTACLE_SIZE + OFFSET),
            (ob.x, ob.y + MIN_CLEARANCE + OBSTACLE_SIZE + OFFSET)] .SOUTH
  | .SOUTH =>
      pick [(ob.x + 1, ob.y - MIN_CLEARANCE - OBSTACLE_SIZE - OFFSET),
            (ob.x - 1, ob.y - MIN_CLEARANCE - OBSTACLE_SIZE - OFFSET),
            (ob.x, ob.y - MIN_CLEARANCE - 1 - OBSTACLE_SIZE - OFFSET),
            (ob.x, ob.y - MIN_CLEARANCE - OBSTACLE_SIZE - OFFSET)] .NORTH
  | .EAST =>
      pick [(ob.x + MIN_CLEARANCE + OBSTACLE_SIZE + OFFSET, ob.y + 1),
            (ob.x + MIN_CLEARANCE + OBSTACLE_SIZE + OFFSET, ob.y - 1),
            (ob.x + MIN_CLEARANCE + 1 + OBSTACLE_SIZE + OFFSET, ob.y),
            (ob.x + MIN_CLEARANCE + OBSTACLE_SIZE + OFFSET, ob.y)] .WEST
  | .WEST =>
      pick [(ob.x - MIN_CLEARANCE - OBSTACLE_SIZE - OFFSET, ob.y + 1),
            (ob.x - MIN_CLEARANCE - OBSTACLE_SIZE - OFFSET, ob.y - 1),
            (ob.x - MIN_CLEARANCE - 1 - OBSTACLE_SIZE - OFFSET, ob.y),
            (ob.x - MIN_CLEARANCE - OBSTACLE_SIZE - OFFSET, ob.y)] .EAST
  | .SKIP => []

/-- Stable insertion used to model Python's stable `list.sort`: `a` is
inserted before the first element `b` for which `b` does not strictly
precede `a`, so elements with equal keys keep their original relative
order. -/
def insertStable (lt : α → α → Bool) (a : α) : List α → List α
  | [] => [a]
  | b :: t => if lt b a then b :: insertStable lt a t else a :: b :: t

/-- Python's stable sort (insertion-sort formulation): `lt x y` means
`x` strictly precedes `y` in the requested order. -/
def pySort (lt : α → α → Bool) : List α → List α
  | [] => []
  | a :: t => insertStable lt a (pySort lt t)

/-- Grid from entity.py. -/
structure Grid where
  size_x : Int
  size_y : Int
  obstacles : List Obstacle
deriving DecidableEq, Repr

/-- Strict (x, y) lexicographic order used by `Grid.add_obstacle`'s
sort key. -/
def obstacleKeyLt (a b : Obstacle) : Bool :=
  decide (a.x < b.x) || (a.x == b.x && decide (a.y < b.y))

/-- Grid.add_obstacle: ignore the obstacle if an (x, y, direction)-equal
one is present, else append and stable-sort by (x, y). -/
def Grid.add_obstacle (g : Grid) (ob : Obstacle) : Grid :=
  if g.obstacles.any (fun o => o.eqObs ob) then g
  else { g with obstacles := pySort obstacleKeyLt (g.obstacles ++ [ob]) }

/-- Grid.is_valid_coord: 0 < x < size_x - 1 and 0 < y < size_y - 1. -/
def Grid.is_valid_coord (g : Grid) (x y : Int) : Bool :=
  decide (0 < x) && decide (x < g.size_x - 1) &&
  decide (0 < y) && decide (y < g.size_y - 1)

/-- Grid.reachable: in bounds, and for every obstacle the Manhattan
distance is not within PADDING and the Chebyshev distance is not
strictly within PADDING. -/
def Grid.reachable (g : Grid) (x y : Int) : Bool :=
  if !g.is_valid_coord x y then false
  else
    g.obstacles.all (fun ob =>
      !decide ((ob.x - x).natAbs + (ob.y - y).natAbs ≤ PADDING.toNat) &&
      !decide (max (ob.x - x).natAbs (ob.y - y).natAbs < PADDING.toNat))

/-- Grid._get_turn_checking_points: the three sampled points near the
turn arc, over exact rationals (the Python floats here are dyadic
rationals, on which float arithmetic is exact). -/
def Grid.get_turn_checking_points
    (x y new_x new_y : Int) (direction : Direction) : List (Rat × Rat) :=
  let mid_x : Rat := (x + new_x) / 2
  let mid_y : Rat := (y + new_y) / 2
  match direction with
  | .NORTH | .SOUTH =>
      let tr_x : Rat := x
      let tr_y : Rat := new_y
      [((x + mid_x) / 2, mid_y),
       ((tr_x + mid_x) / 2, (tr_y + mid_y) / 2),
       (mid_x, (new_y + mid_y) / 2)]
  | .EAST | .WEST =>
      let tr_x : Rat := new_x
      let tr_y : Rat := y
      [(mid_x, (y + mid_y) / 2),
       ((tr_x + mid_x) / 2, (tr_y + mid_y) / 2),
       ((new_x + mid_x) / 2, mid_y)]
  | .SKIP => []

/-- Grid.turn_reachable.  The Python code compares a correctly rounded
float `sqrt(dx*dx + dy*dy)` against the integer thresholds TURN_PADDING
and MID_TURN_PADDING (both 2); since all squared distances here are
rationals with denominator dividing 16 that are exactly representable,
`sqrt(v) < 2` holds for the rounded square root iff `v < 4`, so the
comparison is embedded squared. -/
def Grid.turn_reachable (g : Grid) (x y new_x new_y : Int)
    (direction : Direction) : Bool :=
  let points := Grid.get_turn_checking_points x y new_x new_y direction
  if !g.is_valid_coord x y || !g.is_valid_coord new_x new_y then false
  else
    g.obstacles.all (fun ob =>
      let pre : Int := (ob.x - x) ^ 2 + (ob.y - y) ^ 2
      let post : Int := (ob.x - new_x) ^ 2 + (ob.y - new_y) ^ 2
      !decide (pre < TURN_PADDING * TURN_PADDING) &&
      !decide (post < TURN_PADDING * TURN_PADDING) &&
      points.all (fun p =>
        !decide (((ob.x : Rat) - p.1) ^ 2 + ((ob.y : Rat) - p.2) ^ 2 <
          ((MID_TURN_PADDING * MID_TURN_PADDING : Int) : Rat))))

/-- Grid.get_view_obstacle_positions: per non-SKIP obstacle, its view
states filtered by reachability. -/
def Grid.get_view_obstacle_positions (g : Grid) : List (List CellState) :=
  (g.obstacles.filter (fun ob => ob.direction ≠ Direction.SKIP)).map
    (fun ob => ob.get_view_state.filter (fun v => g.reachable v.x v.y))

/-- Grid.find_obstacle_by_id. -/
def Grid.find_obstacle_by_id (g : Grid) (i : Int) : Option Obstacle :=
  g.obstacles.find? (fun ob => ob.obstacle_id == i)

/-- MazeSolver._estimate_distance at the default level 0: Manhattan
distance (level 1, Euclidean, is never used by the solver). -/
def estimate_distance (s e : CellState) : Int :=
  ((s.x - e.x).natAbs : Int) + ((s.y - e.y).natAbs : Int)

/-- MazeSolver._calculate_safe_cost.  The Python body tests the same
conjunction twice per obstacle (the second `if` is a duplicate of the
first); both are kept by this single `any`. -/
def calculate_safe_cost (g : Grid) (new_x new_y : Int) : Int :=
  if g.obstacles.any (fun obj =>
      decide ((obj.x - new_x).natAbs ≤ PADDING.toNat) &&
      decide ((obj.y - new_y).natAbs ≤ PADDING.toNat)) then
    SAFE_COST
  else 0

/-- MazeSolver._get_turn_configs: the eight turn (destination, motion)
pairs, keyed on the (current, target) direction pair; all other pairs
(identities and 180-degree flips) produce no configurations. -/
def get_turn_configs (direction md : Direction)
    (delta_big delta_small x y : Int) : List (Int × Int × Motion) :=
  match direction, md with
  | .NORTH, .EAST =>
      [(x + delta_big, y + delta_small, .FORWARD_RIGHT_TURN),
       (x - delta_small, y - delta_big, .REVERSE_LEFT_TURN)]
  | .EAST, .NORTH =>
      [(x + delta_small, y + delta_big, .FORWARD_LEFT_TURN),
       (x - delta_big, y - delta_small, .REVERSE_RIGHT_TURN)]
  | .EAST, .SOUTH =>
      [(x + delta_small, y - delta_big, .FORWARD_RIGHT_TURN),
       (x - delta_big, y + delta_small, .REVERSE_LEFT_TURN)]
  | .SOUTH, .EAST =>
      [(x + delta_big, y - delta_small, .FORWARD_LEFT_TURN),
       (x - delta_small, y + delta_big, .REVERSE_RIGHT_TURN)]
  | .SOUTH, .WEST =>
      [(x - delta_big, y - delta_small, .FORWARD_RIGHT_TURN),
       (x + delta_small, y + delta_big, .REVERSE_LEFT_TURN)]
  | .WEST, .SOUTH =>
      [(x - delta_small, y - delta_big, .FORWARD_LEFT_TURN),
       (x + delta_big, y + delta_small, .REVERSE_RIGHT_TURN)]
  | .WEST, .NORTH =>
      [(x - delta_small, y + delta_big, .FORWARD_RIGHT_TURN),
       (x + delta_big, y - delta_small, .REVERSE_LEFT_TURN)]
  | .NORTH, .WEST =>
      [(x - delta_big, y + delta_small, .FORWARD_LEFT_TURN),
       (x + delta_small, y - delta_big, .REVERSE_RIGHT_TURN)]
  | _, _ => []

/-- MazeSolver._get_neighboring_states.  The per-state cache of the
Python code only memoises this pure computation (the grid is fixed
during a solve), so the embedding is the computation itself. -/
def get_neighboring_states (g : Grid) (x y : Int) (direction : Direction) :
    List (Int × Int × Direction × Int × Motion) :=
  MOVE_DIRECTION.flatMap (fun m =>
    let dx := m.1
    let dy := m.2.1
    let md := m.2.2
    if md = direction then
      (if g.reachable (x + dx) (y + dy) then
        [(x + dx, y + dy, md, calculate_safe_cost g (x + dx) (y + dy),
          Motion.FORWARD)]
      else []) ++
      (if g.reachable (x - dx) (y - dy) then
        [(x - dx, y - dy, md, calculate_safe_cost g (x - dx) (y - dy),
          Motion.REVERSE)]
      else [])
    else
      (get_turn_configs direction md TURN_DISPLACEMENT.1 TURN_DISPLACEMENT.2
          x y).filterMap (fun c =>
        if g.turn_reachable x y c.1 c.2.1 direction then
          some (c.1, c.2.1, md, calculate_safe_cost g c.1 c.2.1, c.2.2)
        else none))

/-- Binary digits of `i` (Python `bin(i)[2:]`, most significant first;
`bin(0)[2:]` is "0"). -/
def binDigits (i : Nat) : List Char :=
  Nat.toDigits 2 i

/-- Left zero-fill to length `n` (Python `str.zfill`, which never
truncates). -/
def zfill (n : Nat) (s : List Char) : List Char :=
  List.replicate (n - s.length) '0' ++ s

/-- MazeSolver._get_visit_options: the binary strings for 0..2^n-1,
zero-filled to the popcount of 2^n-1, stably sorted by descending
popcount (Python `sort(key=count, reverse=True)` keeps the original,
numerically ascending, order within a popcount class). -/
def get_visit_options (n : Nat) : List (List Char) :=
  let max_len := (binDigits (2 ^ n - 1)).count '1'
  let strings := (List.range (2 ^ n)).map (fun i => zfill max_len (binDigits i))
  pySort (fun a b => decide (b.count '1' < a.count '1')) strings

/-- MazeSolver._generate_combinations.  The Python recursion walks
`view_positions[index:]`; this embedding recurses on that suffix
directly.  Note the budget check comes after the completed-combination
check, and each child call receives `num_iters - 1` (the local decrement
is not shared between siblings). -/
def generate_combinations
    : List (List CellState) → List Nat → List (List Nat) → Nat →
      List (List Nat)
  | [], current, result, _ => result ++ [current]
  | vp :: rest, current, result, num_iters =>
      if num_iters = 0 then result
      else
        (List.range vp.length).foldl
          (fun res i => generate_combinations rest (current ++ [i]) res
            (num_iters - 1))
          result

/-- MazeSolver._get_capture_relative_position; `none` models the
ValueError raised on a non-cardinal direction. -/
def get_capture_relative_position (cell_state : CellState)
    (obstacle : Obstacle) : Option String :=
  let x := cell_state.x
  let y := cell_state.y
  let x_obs := obstacle.x
  let y_obs := obstacle.y
  match cell_state.direction with
  | .NORTH =>
      some (if x_obs = x ∧ y_obs > y then "C"
        else if x_obs < x then "L" else "R")
  | .SOUTH =>
      some (if x_obs = x ∧ y_obs < y then "C"
        else if x_obs < x then "R" else "L")
  | .EAST =>
      some (if y_obs = y ∧ x_obs > x then "C"
        else if y_obs < y then "R" else "L")
  | .WEST =>
      some (if y_obs = y ∧ x_obs < x then "C"
        else if y_obs < y then "L" else "R")
  | .SKIP => none

/-- CommandGenerator from commands.py. -/
structure CommandGenerator where
  straight_speed : Int := 50
  turn_speed : Int := 30
deriving DecidableEq, Repr

/-- Python `int()` truncation toward zero on an exact rational. -/
def ratTruncInt (q : Rat) : Int :=
  if q < 0 then -Int.floor (-q) else Int.floor q

/-- CommandGenerator._generate_command.  Distances are multiples of
UNIT_DIST = 10.0; Python renders that float as for example "30.0" in
the FORWARD command and as an int elsewhere.  `none` models the
ValueError raised for CAPTURE (which the callers never pass). -/
def generate_command (cg : CommandGenerator) (motion : Motion)
    (num_motions : Nat) : Option (List String) :=
  let dist : Nat := if num_motions > 1 then num_motions * 10 else 10
  match motion with
  | .FORWARD =>
      some ["T" ++ toString cg.straight_speed ++ "|0|" ++ toString dist ++ ".0"]
  | .REVERSE =>
      let base := (List.range (dist / 20)).flatMap
        (fun _ => ["t35|0|20", "T25|30|0.1"])
      let rem := dist % 20
      some (if rem > 0 then
          base ++ ["t35|0|" ++ toString rem] ++
            (if rem ≥ 5 then ["T25|30|0.1"] else [])
        else base)
  | .FORWARD_LEFT_TURN =>
      some ["T30|-50|46", "t25|0|23", "T30|-50|45.5", "T25|10|0.1", "t25|0|3"]
  | .FORWARD_RIGHT_TURN =>
      some ["T30|50|46", "t25|0|20", "T30|50|45.7", "t25|0|4"]
  | .REVERSE_LEFT_TURN =>
      some ["T25|0|3", "t30|-50|46", "T25|0|22", "t30|-50|46.5", "T25|10|0.1"]
  | .REVERSE_RIGHT_TURN =>
      some ["T25|0|6", "t30|48|45.4", "T25|0|14", "t30|48|45.5"]
  | .CAPTURE => none

/-- CommandGenerator._generate_away_command over exact rationals (the
Python float 0.3 is inexact, but this code path is disabled by
W_COMMAND_FLAG = 0; the embedding keeps the ideal arithmetic). -/
def generate_away_command (cg : CommandGenerator) (view_state : CellState)
    (obstacle : Obstacle) : List String :=
  let unit_dist_from_obstacle : Rat :=
    ((max (view_state.x - obstacle.x).natAbs
        (view_state.y - obstacle.y).natAbs : Nat) : Rat)
      - (OFFSET : Rat) - (OBSTACLE_SIZE : Rat) + 3 / 10
  let dist_away := ratTruncInt (unit_dist_from_obstacle * 10)
  ["W" ++ toString cg.straight_speed ++ "|0|" ++ toString dist_away,
   "w" ++ toString cg.straight_speed ++ "|0|" ++ toString dist_away]

/-- Loop state of CommandGenerator.generate_commands. -/
structure GenSt where
  commands : List String
  prev_motion : Motion
  num_motions : Nat
  snap_count : Nat
deriving Repr

/-- One iteration of the motion walk in generate_commands (the body of
the `for motion in motions[1:]` loop). -/
def genStep (cg : CommandGenerator) (obstacle_id_with_signals : List String)
    (scanned_obstacles : List (Option Obstacle)) (view_states : List CellState)
    (st : GenSt) (motion : Motion) : Except String GenSt :=
  if motion = st.prev_motion ∧ motion.is_combinable then
    .ok { st with num_motions := st.num_motions + 1 }
  else if st.prev_motion = .CAPTURE then
    match obstacle_id_with_signals.get? st.snap_count with
    | none => .error "IndexError: obstacle_id_with_signals"
    | some sig =>
        let pre : Except String (List String) :=
          if W_COMMAND_FLAG ≠ 0 ∧ sig.contains 'C' then
            match view_states.get? st.snap_count,
                scanned_obstacles.get? st.snap_count with
            | some v, some (some o) => .ok (generate_away_command cg v o)
            | _, _ => .error "IndexError: view_states or scanned_obstacles"
          else .ok []
        match pre with
        | .error e => .error e
        | .ok pcmds =>
            .ok { commands := st.commands ++ pcmds ++ ["SNAP" ++ sig],
                  prev_motion := motion, num_motions := st.num_motions,
                  snap_count := st.snap_count + 1 }
  else
    match generate_command cg st.prev_motion st.num_motions with
    | none => .error "ValueError: invalid motion"
    | some cur =>
        .ok { commands := st.commands ++ cur, prev_motion := motion,
              num_motions := 1, snap_count := st.snap_count }

/-- CommandGenerator.generate_commands.  An empty motion list returns
an empty command list (the early `return []`); otherwise the motions
are walked, the final pending motion or SNAP is flushed, and "FIN" is
appended. -/
def generate_commands (cg : CommandGenerator) (motions : List Motion)
    (obstacle_id_with_signals : List String)
    (scanned_obstacles : List (Option Obstacle))
    (optimal_path : List CellState) :
    Except String (List String) :=
  match motions with
  | [] => .ok []
  | m0 :: rest =>
      let view_states := optimal_path.filter (fun p => p.screenshot_id.isSome)
      let init : GenSt :=
        { commands := [], prev_motion := m0, num_motions := 1, snap_count := 0 }
      match rest.foldlM
          (genStep cg obstacle_id_with_signals scanned_obstacles view_states)
          init with
      | .error e => .error e
      | .ok st =>
          let flushed : Except String (List String) :=
            if st.prev_motion = .CAPTURE then
              match obstacle_id_with_signals.get? st.snap_count with
              | none => .error "IndexError: obstacle_id_with_signals"
              | some sig =>
                  let pre : Except String (List String) :=
                    if W_COMMAND_FLAG ≠ 0 ∧ sig.contains 'C' then
                      match view_states.get? st.snap_count,
                          scanned_obstacles.get? st.snap_count with
                      | some v, some (some o) => .ok (generate_away_command cg v o)
                      | _, _ =>
                          .error "IndexError: view_states or scanned_obstacles"
                    else .ok []
                  match pre with
                  | .error e => .error e
                  | .ok pcmds => .ok (st.commands ++ pcmds ++ ["SNAP" ++ sig])
            else
              match generate_command cg st.prev_motion st.num_motions with
              | none => .error "ValueError: invalid motion"
              | some cur => .ok (st.commands ++ cur)
          match flushed with
          | .error e => .error e
          | .ok cmds => .ok (cmds ++ ["FIN"])

/-- Modelled from the spec: the robot start pose
(`Robot.get_start_state` of the missing `src/entities/robot.py`): the
request's robot x, y and direction with no screenshot id and zero
penalty. -/
def robot_start_state (x y : Int) (d : Direction) : CellState :=
  { x := x, y := y, direction := d }

/-- The 180-degree flip of a direction (used to state that such flips
are never produced as neighbours). -/
def Direction.flip : Direction → Direction
  | .NORTH => .SOUTH
  | .SOUTH => .NORTH
  | .EAST => .WEST
  | .WEST => .EAST
  | .SKIP => .SKIP

/-- An empty 20 x 20 grid. -/
def emptyGrid : Grid := { size_x := 20, size_y := 20, obstacles := [] }

/-- Grid with a single obstacle at (5, 5): the scenario for C5. -/
def gridOb55 : Grid :=
  { size_x := 20, size_y := 20,
    obstacles := [{ x := 5, y := 5, direction := .NORTH, obstacle_id := 1 }] }

/-- C5: the claimed equivalence with plain Chebyshev clearance fails:
cell (7, 5) is in bounds and every obstacle of `gridOb55` is at L-inf
distance at least 2 from it, yet `reachable` rejects it (its Manhattan
distance to the obstacle is exactly PADDING = 2). -/
theorem C5_counterexample :
    gridOb55.is_valid_coord 7 5 = true ∧
    (∀ ob ∈ gridOb55.obstacles,
      2 ≤ max (ob.x - 7).natAbs (ob.y - 5).natAbs) ∧
    gridOb55.reachable 7 5 = false := by
  refine ⟨by decide, ?_, by decide⟩
  intro ob hob
  fin_cases hob; decide

/-- C5 (amended): for every in-bounds cell, `reachable` holds iff every
obstacle is at Manhattan distance strictly greater than PADDING and at
Chebyshev distance at least PADDING; with PADDING = 2 this is strictly
stronger than Chebyshev clearance 2 alone (see the counterexample). -/
theorem C5_theorem (g : Grid) (x y : Int) (h : g.is_valid_coord x y = true) :
    g.reachable x y = true ↔
      ∀ ob ∈ g.obstacles,
        PADDING.toNat < (ob.x - x).natAbs + (ob.y - y).natAbs ∧
        PADDING.toNat ≤ max (ob.x - x).natAbs (ob.y - y).natAbs := by
  simp only [Grid.reachable, h, Bool.not_true, Bool.false_eq_true, if_false,
    List.all_eq_true, Bool.and_eq_true, Bool.not_eq_true',
    decide_eq_false_iff_not, Nat.not_le, Nat.not_lt]

/-- C5 witness: the amended equivalence applied at the concrete
in-bounds cell (10, 10) of the single-obstacle grid. -/
theorem C5_witness :
    gridOb55.reachable 10 10 = true ↔
      ∀ ob ∈ gridOb55.obstacles,
        PADDING.toNat < (ob.x - 10).natAbs + (ob.y - 10).natAbs ∧
        PADDING.toNat ≤ max (ob.x - 10).natAbs (ob.y - 10).natAbs :=
  C5_theorem gridOb55 10 10 (by decide)

/-- Folding an append-singleton step is a map. -/
theorem foldl_append_singleton {α β : Type} (f : β → α) :
    ∀ (l : List β) (result : List α),
      l.foldl (fun res i => res ++ [f i]) result = result ++ l.map f := by
  intro l
  induction l with
  | nil => intro result; simp
  | cons a t ih => intro result; simp [ih]

/-- The combination enumerator returns every combination as soon as the
budget is at least the recursion depth: each level consumes one unit and
passes the same decremented budget to every sibling. -/
theorem generate_combinations_length :
    ∀ (vps : List (List CellState)) (n : Nat), vps.length ≤ n →
      ∀ (current : List Nat) (result : List (List Nat)),
        (generate_combinations vps current result n).length
          = result.length + (vps.map List.length).prod := by
  intro vps
  induction vps with
  | nil => intro n _ current result; simp [generate_combinations]
  | cons vp rest ih =>
      intro n hn current result
      have hn0 : ¬(n = 0) := by simp at hn; omega
      have hrest : rest.length ≤ n - 1 := by simp at hn; omega
      have fold : ∀ (l : List Nat) (res : List (List Nat)),
          (l.foldl (fun res i =>
              generate_combinations rest (current ++ [i]) res (n - 1))
            res).length
            = res.length + l.length * (rest.map List.length).prod := by
        intro l
        induction l with
        | nil => intro res; simp
        | cons a t iht =>
            intro res
            simp only [List.foldl_cons, iht, ih (n - 1) hrest, List.length_cons]
            ring
      simp only [generate_combinations, if_neg hn0, fold, List.length_range,
        List.map_cons, List.prod_cons]

/-- With a single view list the enumerator returns one singleton
combination per viewpoint. -/
theorem generate_combinations_single (vp : List CellState) (n : Nat)
    (hn : ¬(n = 0)) (current : List Nat) (result : List (List Nat)) :
    generate_combinations [vp] current result n
      = result ++ (List.range vp.length).map (fun i => current ++ [i]) := by
  simp only [generate_combinations, if_neg hn]
  exact foldl_append_singleton (fun i => current ++ [i]) _ _

/-- C6: at budget ITERATIONS = 5000, a single obstacle with 5001 view
poses yields 5001 distinct combinations — more than ITERATIONS — because
the decremented budget is passed to every sibling branch rather than
shared across the recursion. -/
theorem C6_counterexample :
    (generate_combinations [List.replicate 5001 (robot_start_state 1 1 .NORTH)]
        [] [] ITERATIONS).length = 5001 ∧
    (generate_combinations [List.replicate 5001 (robot_start_state 1 1 .NORTH)]
        [] [] ITERATIONS).Nodup ∧
    ITERATIONS < 5001 := by
  rw [generate_combinations_single _ _ (by decide) _ _]
  refine ⟨by simp only [List.nil_append, List.length_map, List.length_range,
    List.length_replicate], ?_, by decide⟩
  simp only [List.nil_append]
  exact (List.nodup_range _).map (fun a b h => by simpa using h)

/-- C6 (amended): the budget bounds the recursion depth, not the number
of combinations: whenever the budget is at least the number of view
lists (ITERATIONS = 5000 always is, for at most eight obstacles), the
enumerator returns all combinations — the product of the view-list
lengths, which may exceed the budget. -/
theorem C6_theorem (vps : List (List CellState)) (n : Nat)
    (h : vps.length ≤ n) :
    (generate_combinations vps [] [] n).length = (vps.map List.length).prod := by
  simpa using generate_combinations_length vps n h [] []

/-- C6 witness: the amended count at a concrete two-obstacle instance. -/
theorem C6_witness :
    (generate_combinations
        [[robot_start_state 1 1 .NORTH],
         [robot_start_state 2 2 .NORTH, robot_start_state 3 3 .NORTH]]
        [] [] ITERATIONS).length
      = ([[robot_start_state 1 1 .NORTH],
          [robot_start_state 2 2 .NORTH, robot_start_state 3 3 .NORTH]].map
          List.length).prod :=
  C6_theorem _ ITERATIONS (by decide)

/-- Symmetry of the distinct-cells relation on obstacles. -/
theorem keyDiff_symm : ∀ ⦃a b : Obstacle⦄,
    (¬(a.x = b.x ∧ a.y = b.y)) → ¬(b.x = a.x ∧ b.y = a.y) :=
  fun _ _ hab hba => hab ⟨hba.1.symm, hba.2.symm⟩

/-- Key comparison facts for the (x, y) sort key. -/
theorem obstacleKeyLt_asymm {a b : Obstacle} (h : obstacleKeyLt a b = true) :
    obstacleKeyLt b a = false := by
  simp only [obstacleKeyLt, Bool.or_eq_true, decide_eq_true_eq,
    Bool.and_eq_true, beq_iff_eq] at h
  simp only [obstacleKeyLt, Bool.or_eq_false_iff, decide_eq_false_iff_not,
    Bool.and_eq_false_iff, beq_eq_false_iff_ne, ne_eq, not_lt]
  omega

/-- Transitivity of the non-strict key order. -/
theorem obstacleKeyLe_trans {a b c : Obstacle}
    (h1 : obstacleKeyLt b a = false) (h2 : obstacleKeyLt c b = false) :
    obstacleKeyLt c a = false := by
  simp only [obstacleKeyLt, Bool.or_eq_false_iff, decide_eq_false_iff_not,
    Bool.and_eq_false_iff, beq_eq_false_iff_ne, ne_eq, not_lt] at h1 h2 ⊢
  omega

/-- Totality on distinct keys: two key-incomparable obstacles share
their (x, y) key. -/
theorem obstacleKeyLt_total {a b : Obstacle}
    (h1 : obstacleKeyLt a b = false) (h2 : obstacleKeyLt b a = false) :
    a.x = b.x ∧ a.y = b.y := by
  simp only [obstacleKeyLt, Bool.or_eq_false_iff, decide_eq_false_iff_not,
    Bool.and_eq_false_iff, beq_eq_false_iff_ne, ne_eq, not_lt] at h1 h2
  omega

/-- Stable insertion preserves the list's multiset of elements. -/
theorem insertStable_perm (lt : α → α → Bool) (a : α) :
    ∀ l : List α, List.Perm (insertStable lt a l) (a :: l) := by
  intro l
  induction l with
  | nil => simp [insertStable]
  | cons b t ih =>
      by_cases h : lt b a = true
      · simpa [insertStable, h] using
          ((ih.cons b).trans (List.Perm.swap a b t))
      · simp [insertStable, h]

/-- The Python stable sort is a permutation. -/
theorem pySort_perm (lt : α → α → Bool) :
    ∀ l : List α, List.Perm (pySort lt l) l := by
  intro l
  induction l with
  | nil => simp [pySort]
  | cons a t ih => exact (insertStable_perm lt a (pySort lt t)).trans (ih.cons a)

/-- Stable insertion into a key-sorted obstacle list stays key-sorted. -/
theorem insertStable_sorted (a : Obstacle) :
    ∀ l : List Obstacle,
      l.Pairwise (fun x y => obstacleKeyLt y x = false) →
      (insertStable obstacleKeyLt a l).Pairwise
        (fun x y => obstacleKeyLt y x = false) := by
  intro l
  induction l with
  | nil => intro _; simp [insertStable]
  | cons b t ih =>
      intro hs
      rw [List.pairwise_cons] at hs
      by_cases h : obstacleKeyLt b a = true
      · rw [insertStable, if_pos h, List.pairwise_cons]
        refine ⟨?_, ih hs.2⟩
        intro c hc
        rcases List.mem_cons.1
            ((List.Perm.mem_iff (insertStable_perm obstacleKeyLt a t)).1 hc)
          with hc2 | hc2
        · simpa [hc2] using obstacleKeyLt_asymm h
        · exact hs.1 c (by simpa using hc2)
      · rw [insertStable, if_neg h, List.pairwise_cons]
        have hb : obstacleKeyLt b a = false := by
          simpa using h
        refine ⟨?_, List.pairwise_cons.2 hs⟩
        intro c hc
        rcases List.mem_cons.1 hc with hc2 | hc2
        · simpa [hc2] using hb
        · exact obstacleKeyLe_trans hb (hs.1 c hc2)

/-- The Python stable sort produces a key-sorted list. -/
theorem pySort_sorted :
    ∀ l : List Obstacle,
      (pySort obstacleKeyLt l).Pairwise
        (fun x y => obstacleKeyLt y x = false) := by
  intro l
  induction l with
  | nil => simp [pySort]
  | cons a t ih => exact insertStable_sorted a (pySort obstacleKeyLt t) ih

/-- Grid.add_obstacle preserves the grid dimensions. -/
theorem add_obstacle_size (g : Grid) (ob : Obstacle) :
    (g.add_obstacle ob).size_x = g.size_x ∧
    (g.add_obstacle ob).size_y = g.size_y := by
  unfold Grid.add_obstacle
  split
  · exact ⟨rfl, rfl⟩
  · exact ⟨rfl, rfl⟩

/-- Folding add_obstacle over a list of obstacles with pairwise distinct
(x, y) keys (also distinct from those already present) appends exactly
those obstacles, up to permutation, and leaves the list key-sorted. -/
theorem fold_add_obstacle :
    ∀ (l : List Obstacle) (g : Grid),
      ((g.obstacles ++ l).Pairwise fun a b => ¬(a.x = b.x ∧ a.y = b.y)) →
      (g.obstacles.Pairwise fun x y => obstacleKeyLt y x = false) →
      List.Perm (l.foldl Grid.add_obstacle g).obstacles (g.obstacles ++ l) ∧
      ((l.foldl Grid.add_obstacle g).obstacles.Pairwise
        fun x y => obstacleKeyLt y x = false) := by
  intro l
  induction l with
  | nil => intro g hk hs; exact ⟨by simp, hs⟩
  | cons ob t ih =>
      intro g hk hs
      have hnodup : g.obstacles.any (fun o => o.eqObs ob) = false := by
        rw [List.any_eq_false]
        intro o ho
        have hrel : ¬(o.x = ob.x ∧ o.y = ob.y) :=
          (List.pairwise_append.1 hk).2.2 o ho ob (by simp)
        intro hEq
        have hxy : o.x = ob.x ∧ o.y = ob.y := by
          simp only [Obstacle.eqObs, Bool.and_eq_true, beq_iff_eq] at hEq
          exact ⟨hEq.1.1, hEq.1.2⟩
        exact hrel hxy
      have hadd : (g.add_obstacle ob).obstacles
          = pySort obstacleKeyLt (g.obstacles ++ [ob]) := by
        unfold Grid.add_obstacle
        rw [hnodup]
        simp
      have hperm2 : List.Perm (g.add_obstacle ob).obstacles
          (g.obstacles ++ [ob]) := by
        rw [hadd]; exact pySort_perm _ _
      have hkey2 : (((g.add_obstacle ob).obstacles) ++ t).Pairwise
          (fun a b => ¬(a.x = b.x ∧ a.y = b.y)) := by
        have hp : List.Perm ((g.add_obstacle ob).obstacles ++ t)
            ((g.obstacles ++ [ob]) ++ t) := hperm2.append_right t
        rw [List.Perm.pairwise_iff (fun h => keyDiff_symm h) hp]
        simpa using hk
      have hsort2 : ((g.add_obstacle ob).obstacles.Pairwise
          fun x y => obstacleKeyLt y x = false) := by
        rw [hadd]; exact pySort_sorted _
      have hmain := ih (g.add_obstacle ob) hkey2 hsort2
      refine ⟨hmain.1.trans ?_, hmain.2⟩
      have hstep : List.Perm ((g.add_obstacle ob).obstacles ++ t)
          ((g.obstacles ++ [ob]) ++ t) := hperm2.append_right t
      simpa using hstep

/-- Two obstacles at (5, 5) facing north with different ids: whichever
is inserted first survives the duplicate check. -/
def ob55id1 : Obstacle := { x := 5, y := 5, direction := .NORTH, obstacle_id := 1 }

/-- Second obstacle at the same cell with a different id. -/
def ob55id2 : Obstacle := { x := 5, y := 5, direction := .NORTH, obstacle_id := 2 }

/-- C7: input permutation invariance fails: inserting two obstacles that
agree on (x, y, direction) but have different ids in the two possible
orders yields different obstacle lists (the duplicate check keeps the
first id), so the claimed order-independence of Grid.add_obstacle does
not hold. -/
theorem C7_counterexample :
    [ob55id1, ob55id2].foldl Grid.add_obstacle emptyGrid
      ≠ [ob55id2, ob55id1].foldl Grid.add_obstacle emptyGrid := by
  decide

/-- C7 (amended): Grid.add_obstacle is insertion-order invariant for
obstacle lists whose (x, y) cells are pairwise distinct (then no
duplicate is dropped and the (x, y) sort is a total order on them); in
general, obstacles sharing a cell break the invariance (see the
counterexample). -/
theorem C7_theorem (l1 l2 : List Obstacle) (hperm : List.Perm l1 l2)
    (hkeys : l1.Pairwise fun a b => ¬(a.x = b.x ∧ a.y = b.y)) :
    l1.foldl Grid.add_obstacle emptyGrid
      = l2.foldl Grid.add_obstacle emptyGrid := by
  have hkeys2 : l2.Pairwise fun a b => ¬(a.x = b.x ∧ a.y = b.y) :=
    (List.Perm.pairwise_iff (fun h => keyDiff_symm h) hperm).1 hkeys
  have h1 := fold_add_obstacle l1 emptyGrid (by simpa [emptyGrid] using hkeys)
    (by simp [emptyGrid])
  have h2 := fold_add_obstacle l2 emptyGrid (by simpa [emptyGrid] using hkeys2)
    (by simp [emptyGrid])
  have hp : List.Perm (l1.foldl Grid.add_obstacle emptyGrid).obstacles
      (l2.foldl Grid.add_obstacle emptyGrid).obstacles := by
    refine (h1.1.trans ?_).trans h2.1.symm
    simpa [emptyGrid] using hperm
  have hstrict : ∀ (g : Grid),
      (g.obstacles.Pairwise fun x y => obstacleKeyLt y x = false) →
      (g.obstacles.Pairwise fun a b => ¬(a.x = b.x ∧ a.y = b.y)) →
      g.obstacles.Pairwise fun a b => obstacleKeyLt a b = true := by
    intro g hsorted hdist
    refine (hsorted.and hdist).imp ?_
    intro a b hab
    by_contra hfalse
    have hfalse2 : obstacleKeyLt a b = false := by
      simpa using hfalse
    exact hab.2 (obstacleKeyLt_total hfalse2 hab.1)
  have hd1 : ((l1.foldl Grid.add_obstacle emptyGrid).obstacles.Pairwise
      fun a b => ¬(a.x = b.x ∧ a.y = b.y)) := by
    rw [List.Perm.pairwise_iff (fun h => keyDiff_symm h) h1.1]
    simpa [emptyGrid] using hkeys
  have hd2 : ((l2.foldl Grid.add_obstacle emptyGrid).obstacles.Pairwise
      fun a b => ¬(a.x = b.x ∧ a.y = b.y)) := by
    rw [List.Perm.pairwise_iff (fun h => keyDiff_symm h) h2.1]
    simpa [emptyGrid] using hkeys2
  haveI : IsAntisymm Obstacle (fun a b => obstacleKeyLt a b = true) := by
    constructor
    intro a b hab hba
    have hcontra := obstacleKeyLt_asymm hab
    rw [hcontra] at hba
    cases hba
  have hobs : (l1.foldl Grid.add_obstacle emptyGrid).obstacles
      = (l2.foldl Grid.add_obstacle emptyGrid).obstacles :=
    List.eq_of_perm_of_sorted hp
      (hstrict _ h1.2 hd1) (hstrict _ h2.2 hd2)
  have hsz : ∀ (l : List Obstacle) (g : Grid),
      (l.foldl Grid.add_obstacle g).size_x = g.size_x ∧
      (l.foldl Grid.add_obstacle g).size_y = g.size_y := by
    intro l
    induction l with
    | nil => intro g; exact ⟨rfl, rfl⟩
    | cons a t ih =>
        intro g
        have ha := ih (g.add_obstacle a)
        have hb := add_obstacle_size g a
        simpa [List.foldl_cons, hb.1, hb.2] using ha
  have hx := (hsz l1 emptyGrid).1.trans (hsz l2 emptyGrid).1.symm
  have hy := (hsz l1 emptyGrid).2.trans (hsz l2 emptyGrid).2.symm
  cases hfold1 : l1.foldl Grid.add_obstacle emptyGrid with
  | mk sx sy obs =>
      cases hfold2 : l2.foldl Grid.add_obstacle emptyGrid with
      | mk sx2 sy2 obs2 =>
          rw [hfold1, hfold2] at hobs hx hy
          simp only at hobs hx hy
          rw [hobs, hx, hy]

/-- C7 witness: insertion-order invariance at two concrete obstacles on
distinct cells. -/
theorem C7_witness :
    [ob55id1, { x := 9, y := 3, direction := .EAST, obstacle_id := 7 }].foldl
        Grid.add_obstacle emptyGrid
      = [{ x := 9, y := 3, direction := .EAST, obstacle_id := 7 }, ob55id1].foldl
        Grid.add_obstacle emptyGrid :=
  C7_theorem _ _ (List.Perm.swap _ _ _) (by decide)

/-- C4: the claimed invariant fails on the empty motion list: the early
return yields an empty command list, which does not end with "FIN". -/
theorem C4_counterexample :
    generate_commands {} [] [] [] [] = Except.ok ([] : List String) ∧
    (([] : List String).getLast? ≠ some "FIN") :=
  ⟨rfl, by decide⟩

/-- Flushing the final FIN append: any normal return of the trailing
match yields a list ending in "FIN". -/
theorem appendFIN_ok {F : Except String (List String)} {cmds : List String}
    (h : (match F with
          | Except.error e => Except.error e
          | Except.ok c => Except.ok (c ++ ["FIN"])) = Except.ok cmds) :
    cmds ≠ [] ∧ cmds.getLast? = some "FIN" := by
  rcases F with e | c
  · cases h
  · rw [Except.ok.injEq] at h
    subst h
    exact ⟨by simp, by simp [List.getLast?_concat]⟩

/-- C4 (amended): for every non-empty motion list, whenever
generate_commands returns normally (no index or motion error), the
returned command list is non-empty and its last element is "FIN"; the
empty motion list instead returns an empty command list. -/
theorem C4_theorem (cg : CommandGenerator) (motions : List Motion)
    (signals : List String) (scanned : List (Option Obstacle))
    (optimal_path : List CellState) (cmds : List String)
    (hne : motions ≠ [])
    (h : generate_commands cg motions signals scanned optimal_path
      = Except.ok cmds) :
    cmds ≠ [] ∧ cmds.getLast? = some "FIN" := by
  rcases motions with _ | ⟨m0, rest⟩
  · exact absurd rfl hne
  · rw [generate_commands] at h
    split at h
    · cases h
    · exact appendFIN_ok h

/-- C4 witness: the amended statement at the one-motion input FORWARD,
whose command list is computed concretely. -/
theorem C4_witness :
    (["T50|0|10.0", "FIN"] : List String) ≠ [] ∧
    (["T50|0|10.0", "FIN"] : List String).getLast? = some "FIN" :=
  C4_theorem {} [.FORWARD] [] [] [] ["T50|0|10.0", "FIN"]
    (by simp) rfl

/-- Turn configurations exist only for the eight adjacent direction
pairs, never for a 180-degree flip of the current direction. -/
theorem get_turn_configs_ne_flip (d md : Direction) (b s x y : Int)
    (h : get_turn_configs d md b s x y ≠ []) : md ≠ d.flip := by
  cases d <;> cases md <;> first
    | exact absurd rfl h
    | decide

/-- C9: the neighbour enumeration realises the spec's displacement table
with B = TURN_DISPLACEMENT.1 = 2 and S = TURN_DISPLACEMENT.2 = 1 — for
each adjacent direction pair the forward and reverse arcs land at the
tabulated offsets with the tabulated motions — and no neighbour ever
carries the 180-degree flip of the current direction. -/
theorem C9_theorem :
    (∀ x y : Int,
      get_turn_configs .NORTH .EAST TURN_DISPLACEMENT.1 TURN_DISPLACEMENT.2 x y
        = [(x + 2, y + 1, .FORWARD_RIGHT_TURN),
           (x - 1, y - 2, .REVERSE_LEFT_TURN)] ∧
      get_turn_configs .EAST .NORTH TURN_DISPLACEMENT.1 TURN_DISPLACEMENT.2 x y
        = [(x + 1, y + 2, .FORWARD_LEFT_TURN),
           (x - 2, y - 1, .REVERSE_RIGHT_TURN)] ∧
      get_turn_configs .EAST .SOUTH TURN_DISPLACEMENT.1 TURN_DISPLACEMENT.2 x y
        = [(x + 1, y - 2, .FORWARD_RIGHT_TURN),
           (x - 2, y + 1, .REVERSE_LEFT_TURN)] ∧
      get_turn_configs .SOUTH .EAST TURN_DISPLACEMENT.1 TURN_DISPLACEMENT.2 x y
        = [(x + 2, y - 1, .FORWARD_LEFT_TURN),
           (x - 1, y + 2, .REVERSE_RIGHT_TURN)] ∧
      get_turn_configs .SOUTH .WEST TURN_DISPLACEMENT.1 TURN_DISPLACEMENT.2 x y
        = [(x - 2, y - 1, .FORWARD_RIGHT_TURN),
           (x + 1, y + 2, .REVERSE_LEFT_TURN)] ∧
      get_turn_configs .WEST .SOUTH TURN_DISPLACEMENT.1 TURN_DISPLACEMENT.2 x y
        = [(x - 1, y - 2, .FORWARD_LEFT_TURN),
           (x + 2, y + 1, .REVERSE_RIGHT_TURN)] ∧
      get_turn_configs .WEST .NORTH TURN_DISPLACEMENT.1 TURN_DISPLACEMENT.2 x y
        = [(x - 1, y + 2, .FORWARD_RIGHT_TURN),
           (x + 2, y - 1, .REVERSE_LEFT_TURN)] ∧
      get_turn_configs .NORTH .WEST TURN_DISPLACEMENT.1 TURN_DISPLACEMENT.2 x y
        = [(x - 2, y + 1, .FORWARD_LEFT_TURN),
           (x + 1, y - 2, .REVERSE_RIGHT_TURN)]) ∧
    (∀ (g : Grid) (x y : Int) (d : Direction)
      (nb : Int × Int × Direction × Int × Motion),
      nb ∈ get_neighboring_states g x y d → nb.2.2.1 ≠ d.flip) := by
  refine ⟨fun x y => ⟨rfl, rfl, rfl, rfl, rfl, rfl, rfl, rfl⟩, ?_⟩
  intro g x y d nb hnb
  simp only [get_neighboring_states, List.mem_flatMap] at hnb
  obtain ⟨m, hm, hnb⟩ := hnb
  fin_cases hm <;>
    · simp only at hnb
      split at hnb
      · rename_i hmd
        rcases List.mem_append.1 hnb with hmem | hmem <;>
          · split at hmem <;> simp only [List.mem_singleton,
              List.not_mem_nil] at hmem
            subst hmem
            subst hmd
            simp [Direction.flip]
      · rcases List.mem_filterMap.1 hnb with ⟨c, hc, hcond⟩
        have hne := get_turn_configs_ne_flip d _ TURN_DISPLACEMENT.1
          TURN_DISPLACEMENT.2 x y (List.ne_nil_of_mem hc)
        split at hcond
        · rw [Option.some.injEq] at hcond
          subst hcond
          exact hne
        · cases hcond

/-- C9 witness: the no-flip fact applied to a concrete neighbour of
(5, 5, NORTH) on the empty grid. -/
theorem C9_witness :
    ((7 : Int), (6 : Int), Direction.EAST, (0 : Int),
      Motion.FORWARD_RIGHT_TURN).2.2.1 ≠ Direction.NORTH.flip :=
  C9_theorem.2 emptyGrid 5 5 .NORTH _ (by decide)

/-- A bare search-state triple (x, y, direction), the key type of the
A* dictionaries. -/
abbrev Triple := Int × Int × Direction

/-- The three memoisation dictionaries of MazeSolver (path_table,
cost_table, motion_table), modelled as functions into Option. -/
structure Tables where
  path_table : CellState × CellState → Option (List Triple)
  cost_table : CellState × CellState → Option Int
  motion_table : Triple × Triple → Option Motion

/-- The empty per-solve tables. -/
def emptyTables : Tables :=
  { path_table := fun _ => none, cost_table := fun _ => none,
    motion_table := fun _ => none }

/-- Lexicographic order on heap entries (f, x, y, direction), matching
Python tuple comparison with Direction compared as its IntEnum value. -/
def heapLe (a b : Int × Int × Int × Direction) : Bool :=
  decide (a.1 < b.1) ||
  (a.1 == b.1 &&
    (decide (a.2.1 < b.2.1) ||
      (a.2.1 == b.2.1 &&
        (decide (a.2.2.1 < b.2.2.1) ||
          (a.2.2.1 == b.2.2.1 && decide (a.2.2.2.val ≤ b.2.2.2.val))))))

/-- Pop the least heap entry; heapq always yields the exact minimum of
the tuple order, and ties can only occur between structurally identical
entries, so extracting the first minimal element is faithful. -/
def popMin (heap : List (Int × Int × Int × Direction)) :
    Option ((Int × Int × Int × Direction) × List (Int × Int × Int × Direction)) :=
  match heap with
  | [] => none
  | e :: t =>
      let m := t.foldl (fun acc x => if heapLe acc x then acc else x) e
      some (m, heap.erase m)

/-- The mutable state of one _astar_search invocation. -/
structure AStarSt where
  heap : List (Int × Int × Int × Direction)
  visited : Finset Triple
  g_dist : Triple → Option Int
  parent : Triple → Option Triple

/-- Walk the parent pointers from a state (the `while parent_pointer in
parent` loop of _record_path); the list starts at the given state and
ends at the first state with no parent (with enough fuel). -/
def walkParent (parent : Triple → Option Triple) : Nat → Triple → List Triple
  | 0, p => [p]
  | fuel + 1, p =>
      match parent p with
      | some q => p :: walkParent parent fuel q
      | none => [p]

/-- MazeSolver._record_path: store the cost symmetrically and the pose
list in both orientations (reversed under the (start, end) key).  When
start = end the Python second assignment wins, which the match order
reproduces. -/
def record_path (start end_ : CellState) (parent : Triple → Option Triple)
    (cost : Int) (fuel : Nat) (tb : Tables) : Tables :=
  let path := walkParent parent fuel (end_.x, end_.y, end_.direction)
  { tb with
    cost_table := fun k =>
      if k = (start, end_) ∨ k = (end_, start) then some cost
      else tb.cost_table k,
    path_table := fun k =>
      if k = (end_, start) then some path
      else if k = (start, end_) then some path.reverse
      else tb.path_table k }

/-- One A* neighbour relaxation (the body of the `for ... in
self._get_neighboring_states(...)` loop): motion_table bookkeeping, edge
cost, and the g-improvement push. -/
def relaxNeighbor (end_ : CellState) (x y : Int) (d : Direction) (dist : Int)
    (visited : Finset Triple)
    (acc : List (Int × Int × Int × Direction) × (Triple → Option Int) ×
      (Triple → Option Triple) × (Triple × Triple → Option Motion))
    (nb : Int × Int × Direction × Int × Motion) :
    List (Int × Int × Int × Direction) × (Triple → Option Int) ×
      (Triple → Option Triple) × (Triple × Triple → Option Motion) :=
  let new_x := nb.1
  let new_y := nb.2.1
  let new_d := nb.2.2.1
  let safe_cost := nb.2.2.2.1
  let motion := nb.2.2.2.2
  if (new_x, new_y, new_d) ∈ visited then acc
  else
    let motionTb :=
      if acc.2.2.2 ((x, y, d), (new_x, new_y, new_d)) = none ∧
          acc.2.2.2 ((new_x, new_y, new_d), (x, y, d)) = none then
        fun k => if k = ((x, y, d), (new_x, new_y, new_d)) then some motion
          else acc.2.2.2 k
      else acc.2.2.2
    let turn_cost := TURN_FACTOR * Direction.turn_cost d new_d
    let reverse_cost := REVERSE_FACTOR * motion.reverse_cost
    let motion_cost := turn_cost + reverse_cost + safe_cost
    let screenshot_cost : Int :=
      if end_.is_eq new_x new_y new_d then end_.penalty else 0
    let total_cost := dist + motion_cost + screenshot_cost +
      estimate_distance { x := new_x, y := new_y, direction := new_d } end_
    let g_new := dist + motion_cost + screenshot_cost
    let improves :=
      match acc.2.1 (new_x, new_y, new_d) with
      | none => true
      | some gOld => decide (gOld > g_new)
    if improves then
      (acc.1 ++ [(total_cost, new_x, new_y, new_d)],
       fun t => if t = (new_x, new_y, new_d) then some g_new else acc.2.1 t,
       fun t => if t = (new_x, new_y, new_d) then some (x, y, d) else acc.2.2.1 t,
       motionTb)
    else
      (acc.1, acc.2.1, acc.2.2.1, motionTb)

/-- The A* main loop of _astar_search, with explicit fuel.  `none`
means the fuel ran out before the loop exited on its own; `some tb`
is the table state at a natural exit (goal reached or heap drained). -/
def astarLoop (g : Grid) (start end_ : CellState) :
    Nat → AStarSt → Tables → Option Tables
  | 0, _, _ => none
  | fuel + 1, st, tb =>
      match popMin st.heap with
      | none => some tb
      | some (e, rest) =>
          let x := e.2.1
          let y := e.2.2.1
          let d := e.2.2.2
          if (x, y, d) ∈ st.visited then
            astarLoop g start end_ fuel { st with heap := rest } tb
          else if end_.is_eq x y d then
            some (record_path start end_ st.parent
              ((st.g_dist (x, y, d)).getD 0) (fuel + 1) tb)
          else
            let visited2 := insert (x, y, d) st.visited
            let dist := (st.g_dist (x, y, d)).getD 0
            let res := (get_neighboring_states g x y d).foldl
              (relaxNeighbor end_ x y d dist visited2)
              (rest, st.g_dist, st.parent, tb.motion_table)
            astarLoop g start end_ fuel
              { heap := res.1, visited := visited2, g_dist := res.2.1,
                parent := res.2.2.1 }
              { tb with motion_table := res.2.2.2 }

/-- MazeSolver._astar_search: early return on a memoised pair, else run
the loop from the start state.  On fuel exhaustion the entry tables are
returned unchanged (see the termination theorem for fuel sufficiency). -/
def astar_search (g : Grid) (fuel : Nat) (tb : Tables)
    (start end_ : CellState) : Tables :=
  if tb.path_table (start, end_) ≠ none then tb
  else
    let st0 : AStarSt :=
      { heap := [(estimate_distance start end_, start.x, start.y,
          start.direction)],
        visited := ∅,
        g_dist := fun t =>
          if t = (start.x, start.y, start.direction) then some 0 else none,
        parent := fun _ => none }
    match astarLoop g start end_ fuel st0 tb with
    | some tb2 => tb2
    | none => tb

/-- The ordered (i, j) pairs with i < j of MazeSolver._generate_paths. -/
def pairsUpper : List α → List (α × α)
  | [] => []
  | a :: t => t.map (fun b => (a, b)) ++ pairsUpper t

/-- MazeSolver._generate_paths: one A* search per unordered pair. -/
def generate_paths (g : Grid) (fuel : Nat) (states : List CellState)
    (tb : Tables) : Tables :=
  (pairsUpper states).foldl (fun t p => astar_search g fuel t p.1 p.2) tb

/-- Modelled from the spec: the external python_tsp Lin-Kernighan solver
is abstracted as a function from the cost-matrix (as a function, with
its size passed separately) to a permutation; per the spec it must
return a permutation of 0..n-1 beginning at index 0, and the reported
distance is the cyclic tour cost of the returned permutation, which
`cycleCost` computes. -/
def TspSolver : Type :=
  (Nat → Nat → Int) → Nat → List Nat

/-- Cyclic tour cost of a permutation over a cost matrix (the fitness
value python_tsp reports: consecutive entries plus the closing edge).
Every float the Python solver handles here is an exact small integer
(memoised integer costs, 0 and 1e9), so Int is an exact model. -/
def cycleCost (m : Nat → Nat → Int) (perm : List Nat) : Int :=
  match perm with
  | [] => 0
  | p0 :: _ =>
      (perm.zip (perm.drop 1 ++ [p0])).foldl
        (fun acc pr => acc + m pr.1 pr.2) 0

/-- The spec's contract for the TSP solver: on a non-trivial matrix the
result is a permutation of 0..n-1 starting at 0. -/
def TspContract (tsp : TspSolver) : Prop :=
  ∀ (m : Nat → Nat → Int) (n : Nat), 0 < n →
    List.Perm (tsp m n) (List.range n) ∧ (tsp m n).headD 0 = 0

/-- The identity-permutation solver (a valid Lin-Kernighan outcome). -/
def tspIdentity : TspSolver := fun _ n => List.range n

/-- tspIdentity satisfies the contract. -/
theorem tspIdentity_contract : TspContract tspIdentity := by
  intro m n hn
  refine ⟨List.Perm.refl _, ?_⟩
  cases n with
  | zero => cases hn
  | succ k => simp [tspIdentity, List.range_succ_eq_map]

/-- Fallback CellState used to model Python list indexing defaults in
branches that a contract-satisfying TSP never reaches. -/
def dfltCell : CellState := { x := 0, y := 0, direction := .NORTH }

/-- The TSP cost matrix of get_optimal_path after the symmetric fill and
the zeroing of column 0: entry (i, j) with j different from 0 and from i
is the memoised cost of the (min, max)-ordered pair, or 1e9 when the
pair is missing from the cost table. -/
def costMatrix (lookup : CellState × CellState → Option Int)
    (visit_states : List CellState) (visited : List Nat) :
    Nat → Nat → Int :=
  fun i j =>
    if j = 0 then 0
    else if i = j then 0
    else
      let a := min i j
      let b := max i j
      match lookup (visit_states.getD (visited.getD a 0) dfltCell,
          visit_states.getD (visited.getD b 0) dfltCell) with
      | some c => c
      | none => 1000000000

/-- The running state of the subset-mask loop of get_optimal_path.
`processed` is a ghost trace of the masks the loop has run, used only to
state facts about the break behaviour. -/
structure SolveSt where
  tables : Tables
  optimal_path : List CellState
  min_dist : Int
  processed : List (List Char)

/-- Stitch one leg of the winning permutation (the body of the
`for idx in range(len(permutation) - 1)` loop): append the memoised
sub-path's tail and re-tag the last pose with the screenshot tag. -/
def stitchLeg (grid : Grid) (tb : Tables) (visit_states : List CellState)
    (visited : List Nat) (perm : List Nat) (path : List CellState)
    (idx : Nat) : Except String (List CellState) :=
  let startCell := visit_states.headD dfltCell
  let from_state := visit_states.getD (visited.getD (perm.getD idx 0) 0)
    startCell
  let to_state := visit_states.getD (visited.getD (perm.getD (idx + 1) 0) 0)
    startCell
  match tb.path_table (from_state, to_state) with
  | none => .error "KeyError: path_table"
  | some current_path =>
      let path2 := path ++ current_path.tail.map
        (fun t => { x := t.1, y := t.2.1, direction := t.2.2 : CellState })
      match to_state.screenshot_id with
      | some (SId.num oid) =>
          match grid.find_obstacle_by_id oid with
          | some obs =>
              match path2.getLast? with
              | some lastp =>
                  match get_capture_relative_position lastp obs with
                  | some pos =>
                      .ok (path2.dropLast ++
                        [lastp.set_screenshot (SId.tag (toString oid ++ "_" ++ pos))])
                  | none => .error "ValueError: invalid direction"
              | none => .error "IndexError: empty optimal path"
          | none => .error "ValueError: Obstacle not found"
      | _ => .error "ValueError: Obstacle not found"

/-- Process one combination (the body of the `for combination in
combinations` loop): selected-viewpoint penalties, cost matrix, TSP
solve, and, on improvement, restitching of the optimal path. -/
def processCombination (grid : Grid) (tsp : TspSolver)
    (visit_states : List CellState)
    (cur_view_positions : List (List CellState)) (comb : List Nat)
    (st : SolveSt) : Except String SolveSt :=
  let startCell := visit_states.headD dfltCell
  let acc := cur_view_positions.enum.foldl
    (fun (acc : List Nat × Nat × Int) p =>
      let idx := p.1
      let view_pos := p.2
      (acc.1 ++ [acc.2.1 + comb.getD idx 0],
       acc.2.1 + view_pos.length,
       acc.2.2 + (view_pos.getD (comb.getD idx 0) dfltCell).penalty))
    ([0], 1, 0)
  let visited := acc.1
  let cost := acc.2.2
  let m := costMatrix st.tables.cost_table visit_states visited
  let perm := tsp m visited.length
  let distance := cycleCost m perm
  if distance + cost ≥ st.min_dist then .ok st
  else
    match (List.range (perm.length - 1)).foldlM
        (stitchLeg grid st.tables visit_states visited perm) [startCell] with
    | .error e => .error e
    | .ok newPath =>
        .ok { st with optimal_path := newPath,
                      min_dist := distance + cost }

/-- Process one subset mask (the body of the `for bin_pos in
self._get_visit_options(num_views)` loop up to the break check). -/
def maskBody (grid : Grid) (tsp : TspSolver) (start : CellState)
    (fuel : Nat) (bin_pos : List Char) (st : SolveSt) :
    Except String SolveSt :=
  let views := grid.get_view_obstacle_positions
  let num_views := views.length
  let cur_view_positions := (List.range num_views).filterMap (fun i =>
    if bin_pos.getD i '0' = '1' then some (views.getD i []) else none)
  let visit_states := start :: cur_view_positions.flatten
  let tables2 := generate_paths grid fuel visit_states st.tables
  let combos := generate_combinations cur_view_positions [] [] ITERATIONS
  combos.foldlM
    (fun s comb =>
      processCombination grid tsp visit_states cur_view_positions comb s)
    { st with tables := tables2 }

/-- The subset-mask loop with its break: after each mask, stop as soon
as the optimal path is non-empty. -/
def visitLoop (grid : Grid) (tsp : TspSolver) (start : CellState)
    (fuel : Nat) : List (List Char) → SolveSt → Except String SolveSt
  | [], st => .ok st
  | bin_pos :: rest, st =>
      match maskBody grid tsp start fuel bin_pos st with
      | .error e => .error e
      | .ok st2 =>
          let st3 := { st2 with processed := st2.processed ++ [bin_pos] }
          if st3.optimal_path ≠ [] then .ok st3
          else visitLoop grid tsp start fuel rest st3

/-- MazeSolver.get_optimal_path (full state): run the mask loop from the
empty tables with min_dist = 1e9. -/
def get_optimal_path_full (grid : Grid) (tsp : TspSolver)
    (start : CellState) (fuel : Nat) : Except String SolveSt :=
  visitLoop grid tsp start fuel
    (get_visit_options grid.get_view_obstacle_positions.length)
    { tables := emptyTables, optimal_path := [], min_dist := 1000000000,
      processed := [] }

/-- MazeSolver.get_optimal_path: the (optimal_path, min_dist) pair. -/
def get_optimal_path (grid : Grid) (tsp : TspSolver) (start : CellState)
    (fuel : Nat) : Except String (List CellState × Int) :=
  match get_optimal_path_full grid tsp start fuel with
  | .error e => .error e
  | .ok st => .ok (st.optimal_path, st.min_dist)

/-- The masks actually processed by the loop (ghost projection). -/
def get_optimal_path_processed (grid : Grid) (tsp : TspSolver)
    (start : CellState) (fuel : Nat) : Except String (List (List Char)) :=
  match get_optimal_path_full grid tsp start fuel with
  | .error e => .error e
  | .ok st => .ok st.processed

/-- Parse the leading integer of a screenshot id the way
`int(str(screenshot_id).split("_")[0])` does. -/
def sidLeadingId : SId → Option Int
  | SId.num n => some n
  | SId.tag s =>
      (String.mk (s.data.takeWhile (fun c => c ≠ '_'))).toInt?

/-- Render a screenshot id the way Python string interpolation does
(used for the SNAP command argument). -/
def sidToString : SId → String
  | SId.num n => toString n
  | SId.tag s => s

/-- MazeSolver.optimal_path_to_motion_path: derive the motion list from
consecutive pose pairs via the motion table (reversed key first, with
the opposite motion), inserting CAPTURE after each tagged pose. -/
def optimal_path_to_motion_path (grid : Grid) (tb : Tables)
    (optimal_path : List CellState) :
    Except String (List Motion × List SId × List (Option Obstacle)) :=
  (List.range (optimal_path.length - 1)).foldlM
    (fun acc i =>
      let from_state := optimal_path.getD i dfltCell
      let to_state := optimal_path.getD (i + 1) dfltCell
      let k1 : Triple × Triple :=
        ((to_state.x, to_state.y, to_state.direction),
         (from_state.x, from_state.y, from_state.direction))
      let k2 : Triple × Triple :=
        ((from_state.x, from_state.y, from_state.direction),
         (to_state.x, to_state.y, to_state.direction))
      match tb.motion_table k1 with
      | some motion => do
          let acc2 := (acc.1 ++ [motion.opposite_motion], acc.2.1, acc.2.2)
          match to_state.screenshot_id with
          | some sid =>
              match sidLeadingId sid with
              | some oid =>
                  .ok (acc2.1 ++ [Motion.CAPTURE], acc2.2.1 ++ [sid],
                    acc2.2.2 ++ [grid.find_obstacle_by_id oid])
              | none => .error "ValueError: invalid screenshot id"
          | none => .ok acc2
      | none =>
          match tb.motion_table k2 with
          | some motion =>
              let acc2 := (acc.1 ++ [motion], acc.2.1, acc.2.2)
              match to_state.screenshot_id with
              | some sid =>
                  match sidLeadingId sid with
                  | some oid =>
                      .ok (acc2.1 ++ [Motion.CAPTURE], acc2.2.1 ++ [sid],
                        acc2.2.2 ++ [grid.find_obstacle_by_id oid])
                  | none => .error "ValueError: invalid screenshot id"
              | none => .ok acc2
          | none => .error "ValueError: Invalid path"
      )
    ([], [], [])

/-- A pathfinding request after schema validation (pathfinding.py /
requests.py): 1 to 8 obstacles, coordinates in [0, 20), direction given
as a Direction value. -/
structure PathfindingRequest where
  obstacles : List Obstacle
  robot_x : Int := 1
  robot_y : Int := 1
  robot_dir : Direction := .NORTH

/-- One pose of the HTTP response. -/
structure PathState where
  x : Int
  y : Int
  d : Int
  s : Option SId
deriving DecidableEq, Repr

/-- The HTTP response of /path (runtime elided: wall-clock time is not
modelled; the float cost is integral throughout and modelled as Int). -/
structure PathfindingResponse where
  path : List PathState
  commands : List String
  cost : Int
deriving DecidableEq, Repr

/-- The two error classes of the route: 422 for no valid path, 500 for
any other exception. -/
inductive HttpError where
  | unprocessable (detail : String)
  | internal (detail : String)
deriving DecidableEq, Repr

/-- find_path from api/routes/pathfinding.py: build the solver, add the
obstacles, solve, translate an empty path to 422, any exception to 500,
and otherwise assemble motions, commands and the response. -/
def find_path (tsp : TspSolver) (fuel : Nat) (request : PathfindingRequest) :
    Except HttpError PathfindingResponse :=
  let grid := request.obstacles.foldl Grid.add_obstacle
    { size_x := 20, size_y := 20, obstacles := [] }
  let start := robot_start_state request.robot_x request.robot_y
    request.robot_dir
  match get_optimal_path_full grid tsp start fuel with
  | .error e => .error (HttpError.internal e)
  | .ok st =>
      if st.optimal_path = [] then
        .error (HttpError.unprocessable "No valid path found for given obstacles")
      else
        match optimal_path_to_motion_path grid st.tables st.optimal_path with
        | .error e => .error (HttpError.internal e)
        | .ok (motions, obstacle_ids, scanned) =>
            match generate_commands {} motions (obstacle_ids.map sidToString)
                scanned st.optimal_path with
            | .error e => .error (HttpError.internal e)
            | .ok commands =>
                .ok { path := st.optimal_path.map (fun c =>
                        { x := c.x, y := c.y, d := c.direction.val,
                          s := c.screenshot_id }),
                      commands := commands,
                      cost := st.min_dist }

/-- Stable insertion for a general strict order with asymmetry and
le-transitivity keeps the list sorted (non-strictly). -/
theorem insertStable_sorted_general (lt : α → α → Bool)
    (hAsymm : ∀ a b, lt a b = true → lt b a = false)
    (hTrans : ∀ a b c, lt b a = false → lt c b = false → lt c a = false)
    (a : α) :
    ∀ l : List α,
      l.Pairwise (fun x y => lt y x = false) →
      (insertStable lt a l).Pairwise (fun x y => lt y x = false) := by
  intro l
  induction l with
  | nil => intro _; simp [insertStable]
  | cons b t ih =>
      intro hs
      rw [List.pairwise_cons] at hs
      by_cases h : lt b a = true
      · rw [insertStable, if_pos h, List.pairwise_cons]
        refine ⟨?_, ih hs.2⟩
        intro c hc
        rcases List.mem_cons.1
            ((List.Perm.mem_iff (insertStable_perm lt a t)).1 hc)
          with hc2 | hc2
        · simpa [hc2] using hAsymm b a h
        · exact hs.1 c hc2
      · rw [insertStable, if_neg h, List.pairwise_cons]
        have hb : lt b a = false := by
          simpa using h
        refine ⟨?_, List.pairwise_cons.2 hs⟩
        intro c hc
        rcases List.mem_cons.1 hc with hc2 | hc2
        · simpa [hc2] using hb
        · exact hTrans a b c hb (hs.1 c hc2)

/-- The Python stable sort for a general strict order is sorted. -/
theorem pySort_sorted_general (lt : α → α → Bool)
    (hAsymm : ∀ a b, lt a b = true → lt b a = false)
    (hTrans : ∀ a b c, lt b a = false → lt c b = false → lt c a = false) :
    ∀ l : List α,
      (pySort lt l).Pairwise (fun x y => lt y x = false) := by
  intro l
  induction l with
  | nil => simp [pySort]
  | cons a t ih =>
      exact insertStable_sorted_general lt hAsymm hTrans a (pySort lt t) ih

/-- The visit options are sorted by non-increasing popcount. -/
theorem get_visit_options_sorted (n : Nat) :
    (get_visit_options n).Pairwise
      (fun a b => b.count '1' ≤ a.count '1') := by
  have h := pySort_sorted_general
    (fun a b : List Char => decide (b.count '1' < a.count '1'))
    (fun a b hab => by
      simp only [decide_eq_true_eq] at hab
      simp only [decide_eq_false_iff_not, not_lt]
      omega)
    (fun a b c h1 h2 => by
      simp only [decide_eq_false_iff_not, not_lt] at h1 h2 ⊢
      omega)
    ((List.range (2 ^ n)).map
      (fun i => zfill ((binDigits (2 ^ n - 1)).count '1') (binDigits i)))
  refine h.imp ?_
  intro a b hab
  simpa [not_lt] using hab

/-- The scenario grid for C1: obstacle 1 at (0, 10) facing west has no
valid viewing pose (all candidates fall outside the arena); obstacle 2
at (1, 4) facing south has exactly one reachable viewing pose, which is
the robot start cell (1, 1) facing north; the SKIP obstacle at (4, 1)
only blocks the other candidate pose (2, 1). -/
def c1Grid : Grid :=
  { size_x := 20, size_y := 20,
    obstacles := [
      { x := 0, y := 10, direction := .WEST, obstacle_id := 1 },
      { x := 1, y := 4, direction := .SOUTH, obstacle_id := 2 },
      { x := 4, y := 1, direction := .SKIP, obstacle_id := 3 }] }

/-- C1: the mask loop does not explore the remaining masks of the first
feasible popcount: on `c1Grid` the options are ["11", "01", "10", "00"],
mask "11" is infeasible, mask "01" yields a non-empty path and the loop
breaks at once, so mask "10" — of the same popcount as "01" — is never
processed. -/
theorem C1_counterexample :
    get_optimal_path_processed c1Grid tspIdentity
        (robot_start_state 1 1 .NORTH) 50
      = .ok [['1', '1'], ['0', '1']] ∧
    get_visit_options c1Grid.get_view_obstacle_positions.length
      = [['1', '1'], ['0', '1'], ['1', '0'], ['0', '0']] ∧
    (['1', '0'] : List Char).count '1' = (['0', '1'] : List Char).count '1' ∧
    (['1', '0'] : List Char) ∉ [[('1' : Char), '1'], ['0', '1']] ∧
    get_optimal_path c1Grid tspIdentity (robot_start_state 1 1 .NORTH) 50
      = .ok ([({ x := 1, y := 1, direction := Direction.NORTH,
                 screenshot_id := some (SId.tag "2_C"),
                 penalty := 0 } : CellState)], 1000) := by
  exact ⟨rfl, rfl, by decide, by decide, rfl⟩

/-- C1 (amended): masks are tried in popcount-descending order, but the
loop breaks immediately after the first mask that yields a non-empty
optimal path — remaining masks, including those of the same popcount,
are not explored, and the returned path is the best over the masks
processed up to and including that first feasible one. -/
theorem C1_theorem :
    (∀ n : Nat, (get_visit_options n).Pairwise
      (fun a b => b.count '1' ≤ a.count '1')) ∧
    (∀ (grid : Grid) (tsp : TspSolver) (start : CellState) (fuel : Nat)
      (bin_pos : List Char) (rest : List (List Char)) (st st2 : SolveSt),
      maskBody grid tsp start fuel bin_pos st = .ok st2 →
      st2.optimal_path ≠ [] →
      visitLoop grid tsp start fuel (bin_pos :: rest) st
        = .ok { st2 with processed := st2.processed ++ [bin_pos] }) := by
  refine ⟨get_visit_options_sorted, ?_⟩
  intro grid tsp start fuel bin_pos rest st st2 hbody hne
  rw [visitLoop, hbody]
  simp only [hne, if_pos, ne_eq, not_false_iff]

/-- The initial state of the mask loop. -/
def initSolveSt : SolveSt :=
  { tables := emptyTables, optimal_path := [], min_dist := 1000000000,
    processed := [] }

/-- The state after the single all-zero mask on the empty grid (used to
instantiate the amended C1 theorem concretely). -/
def c1WitnessSt : SolveSt :=
  (maskBody emptyGrid tspIdentity (robot_start_state 1 1 .NORTH) 5 ['0']
    initSolveSt).toOption.getD initSolveSt

/-- C1 witness: break-immediacy applied at the concrete empty-grid
instance. -/
theorem C1_witness :
    visitLoop emptyGrid tspIdentity (robot_start_state 1 1 .NORTH) 5 [['0']]
        initSolveSt
      = .ok { c1WitnessSt with
          processed := c1WitnessSt.processed ++ [['0']] } :=
  C1_theorem.2 emptyGrid tspIdentity (robot_start_state 1 1 .NORTH) 5 ['0']
    [] initSolveSt c1WitnessSt rfl (by decide)

/-- If some view list is empty, the combination enumerator produces
nothing beyond the accumulated result. -/
theorem generate_combinations_mem_nil :
    ∀ (vps : List (List CellState)), [] ∈ vps →
      ∀ (current : List Nat) (result : List (List Nat)) (k : Nat),
        generate_combinations vps current result k = result := by
  intro vps
  induction vps with
  | nil => intro h; cases h
  | cons vp rest ih =>
      intro hmem current result k
      rcases List.mem_cons.1 hmem with hvp | hvp
      · subst hvp
        rw [generate_combinations]
        split
        · rfl
        · rfl
      · rw [generate_combinations]
        split
        · rfl
        · have hfold : ∀ (l : List Nat) (res : List (List Nat)),
              l.foldl (fun res i =>
                generate_combinations rest (current ++ [i]) res (k - 1)) res
                = res := by
            intro l
            induction l with
            | nil => intro res; rfl
            | cons a t iht =>
                intro res
                rw [List.foldl_cons, ih hvp]
                exact iht res
          exact hfold _ _

/-- The all-zero mask is among the visit options and selects nothing. -/
theorem get_visit_options_mem_zeros (n : Nat) :
    ∃ m ∈ get_visit_options n, ∀ i : Nat, m.getD i '0' ≠ '1' := by
  refine ⟨zfill ((binDigits (2 ^ n - 1)).count '1') (binDigits 0), ?_, ?_⟩
  · have hmem0 : zfill ((binDigits (2 ^ n - 1)).count '1') (binDigits 0)
        ∈ (List.range (2 ^ n)).map
          (fun i => zfill ((binDigits (2 ^ n - 1)).count '1') (binDigits i)) :=
      List.mem_map.2 ⟨0, List.mem_range.2 (Nat.pos_pow_of_pos n (by omega)), rfl⟩
    exact (List.Perm.mem_iff (pySort_perm _ _)).2 hmem0
  · intro i
    have hall : ∀ c ∈ zfill ((binDigits (2 ^ n - 1)).count '1') (binDigits 0),
        c = '0' := by
      intro c hc
      have hz : binDigits 0 = ['0'] := rfl
      rw [hz] at hc
      rcases List.mem_append.1 hc with hc2 | hc2
      · exact List.eq_of_mem_replicate hc2
      · simpa using hc2
    rw [List.getD_eq_getElem?_getD]
    cases hget : (zfill ((binDigits (2 ^ n - 1)).count '1')
        (binDigits 0))[i]? with
    | none => simp
    | some c =>
        have hc := hall c (List.getElem?_mem hget)
        simp [hget, hc]

/-- A mask that selects some obstacle whose view list is empty changes
nothing but the tables: the combination list is empty. -/
theorem maskBody_selects_empty (grid : Grid) (tsp : TspSolver)
    (start : CellState) (fuel : Nat) (bin_pos : List Char) (st : SolveSt)
    (hviews : ∀ v ∈ grid.get_view_obstacle_positions, v = [])
    (hsel : ∃ i, i < grid.get_view_obstacle_positions.length ∧
      bin_pos.getD i '0' = '1') :
    ∃ tb2, maskBody grid tsp start fuel bin_pos st
      = .ok { st with tables := tb2 } := by
  obtain ⟨i, hi, hbit⟩ := hsel
  rw [maskBody]
  have hnil : ([] : List CellState) ∈
      (List.range grid.get_view_obstacle_positions.length).filterMap (fun i =>
        if bin_pos.getD i '0' = '1' then
          some (grid.get_view_obstacle_positions.getD i []) else none) := by
    refine List.mem_filterMap.2 ⟨i, List.mem_range.2 hi, ?_⟩
    rw [if_pos hbit]
    have : grid.get_view_obstacle_positions.getD i [] = [] := by
      rw [List.getD_eq_getElem?_getD]
      cases hget : grid.get_view_obstacle_positions[i]? with
      | none => simp
      | some v =>
          have hv := hviews v (List.getElem?_mem hget)
          simp [hget, hv]
    rw [this]
  rw [generate_combinations_mem_nil _ hnil]
  exact ⟨_, rfl⟩

/-- A mask that selects nothing (with a contract-satisfying TSP and a
positive incumbent) yields the single-pose path [start] at cost 0. -/
theorem maskBody_selects_none (grid : Grid) (tsp : TspSolver)
    (start : CellState) (fuel : Nat) (bin_pos : List Char) (st : SolveSt)
    (htsp : TspContract tsp) (hmin : 0 < st.min_dist)
    (hsel : ∀ i, i < grid.get_view_obstacle_positions.length →
      bin_pos.getD i '0' ≠ '1') :
    ∃ tb2, maskBody grid tsp start fuel bin_pos st
      = .ok { st with
              tables := tb2,
              optimal_path := [start],
              min_dist := 0 } := by
  rw [maskBody]
  have hcur : (List.range grid.get_view_obstacle_positions.length).filterMap
      (fun i => if bin_pos.getD i '0' = '1' then
        some (grid.get_view_obstacle_positions.getD i []) else none) = [] := by
    rw [List.filterMap_eq_nil_iff]
    intro i hi
    rw [if_neg (hsel i (List.mem_range.1 hi))]
  rw [hcur]
  have hperm1 := htsp (costMatrix
    (generate_paths grid fuel (start :: List.flatten []) st.tables).cost_table
    (start :: List.flatten []) [0]) 1 (by omega)
  have hperm : tsp (costMatrix
      (generate_paths grid fuel (start :: List.flatten []) st.tables).cost_table
      (start :: List.flatten []) [0]) 1 = [0] :=
    List.perm_singleton.1 (by exact hperm1.1)
  have hcombos : generate_combinations [] [] [] ITERATIONS = [[]] := rfl
  rw [hcombos]
  simp only [List.foldlM_cons, List.foldlM_nil]
  rw [processCombination]
  have hdist : cycleCost (costMatrix
      (generate_paths grid fuel (start :: List.flatten []) st.tables).cost_table
      (start :: List.flatten []) [0]) [0] = 0 := rfl
  simp only [List.enum_nil, List.foldl_nil, List.length_singleton, hperm,
    hdist]
  rw [if_neg (by omega)]
  simp only [List.length_singleton, Nat.sub_self, List.range_zero,
    List.foldlM_nil]
  refine ⟨generate_paths grid fuel (start :: List.flatten []) st.tables, ?_⟩
  norm_num
  rfl

/-- The mask loop under all-empty view lists: nothing changes until the
first mask selecting no obstacle, which yields ([start], 0). -/
theorem visitLoop_all_empty (grid : Grid) (tsp : TspSolver)
    (start : CellState) (fuel : Nat) (htsp : TspContract tsp)
    (hviews : ∀ v ∈ grid.get_view_obstacle_positions, v = []) :
    ∀ (masks : List (List Char)) (st : SolveSt),
      st.optimal_path = [] → 0 < st.min_dist →
      (∃ m ∈ masks, ∀ i, i < grid.get_view_obstacle_positions.length →
        m.getD i '0' ≠ '1') →
      ∃ st2, visitLoop grid tsp start fuel masks st = .ok st2 ∧
        st2.optimal_path = [start] ∧ st2.min_dist = 0 := by
  intro masks
  induction masks with
  | nil =>
      intro st _ _ hex
      obtain ⟨m, hm, _⟩ := hex
      cases hm
  | cons m rest ih =>
      intro st hpath hmin hex
      by_cases hB : ∀ i, i < grid.get_view_obstacle_positions.length →
          m.getD i '0' ≠ '1'
      · obtain ⟨tb2, hbody⟩ :=
          maskBody_selects_none grid tsp start fuel m st htsp hmin hB
        simp only [visitLoop, hbody, ne_eq, List.cons_ne_nil, not_false_iff,
          if_true]
        exact ⟨_, rfl, rfl, rfl⟩
      · push_neg at hB
        obtain ⟨i, hi, hbit⟩ := hB
        obtain ⟨tb2, hbody⟩ := maskBody_selects_empty grid tsp start fuel m st
          hviews ⟨i, hi, hbit⟩
        simp only [visitLoop, hbody, hpath, ne_eq, not_true_eq_false,
          if_false]
        obtain ⟨m0, hm0, hm0B⟩ := hex
        have hm0rest : m0 ∈ rest := by
          rcases List.mem_cons.1 hm0 with h0 | h0
          · exfalso
            subst h0
            exact (hm0B i hi) hbit
          · exact h0
        exact ih { st with
                   tables := tb2,
                   optimal_path := [],
                   processed := st.processed ++ [m] }
          rfl (by simpa using hmin) ⟨m0, hm0rest, hm0B⟩

/-- C2 (amended): when no subset of obstacles is visitable (every view
list is empty), get_optimal_path does NOT return an empty path: the
all-zero mask still yields the single-pose path [robot start] at cost 0,
so the solve returns a non-empty path visiting zero obstacles and the
caller's empty-path 422 branch is not taken. -/
theorem C2_theorem (grid : Grid) (tsp : TspSolver) (start : CellState)
    (fuel : Nat) (htsp : TspContract tsp)
    (hviews : ∀ v ∈ grid.get_view_obstacle_positions, v = []) :
    get_optimal_path grid tsp start fuel = .ok ([start], 0) := by
  obtain ⟨m0, hm0, hm0B⟩ :=
    get_visit_options_mem_zeros grid.get_view_obstacle_positions.length
  obtain ⟨st2, hloop, hpath, hmin⟩ := visitLoop_all_empty grid tsp start fuel
    htsp hviews (get_visit_options grid.get_view_obstacle_positions.length)
    initSolveSt rfl (by norm_num [initSolveSt])
    ⟨m0, hm0, fun i _ => hm0B i⟩
  rw [get_optimal_path, get_optimal_path_full]
  have hinit : ({ tables := emptyTables,
                  optimal_path := [],
                  min_dist := 1000000000,
                  processed := [] } : SolveSt) = initSolveSt := rfl
  rw [hinit, hloop]
  simp [hpath, hmin]

/-- Scenario grid for C2/C3: the single obstacle at (18, 10) facing
east has all four candidate viewing poses outside the arena, so its
view list is empty and no subset is visitable. -/
def c2Grid : Grid :=
  { size_x := 20, size_y := 20,
    obstacles := [{ x := 18, y := 10, direction := .EAST, obstacle_id := 1 }] }

/-- C2: with no visitable subset, the solve still returns the non-empty
single-pose path [start] at cost 0 (visiting zero obstacles, no
screenshot tag), and find_path returns 200-OK with that path and an
empty command list rather than the claimed 422. -/
theorem C2_counterexample :
    c2Grid.get_view_obstacle_positions = [[]] ∧
    get_optimal_path c2Grid tspIdentity (robot_start_state 1 1 .NORTH) 50
      = .ok ([robot_start_state 1 1 .NORTH], 0) ∧
    ([robot_start_state 1 1 .NORTH] : List CellState) ≠ [] ∧
    (∀ p ∈ ([robot_start_state 1 1 .NORTH] : List CellState),
      p.screenshot_id = none) ∧
    find_path tspIdentity 50
        { obstacles := [{ x := 18, y := 10, direction := .EAST,
                          obstacle_id := 1 }] }
      = .ok { path := [{ x := 1, y := 1, d := 0, s := none }],
              commands := [], cost := 0 } := by
  exact ⟨rfl, rfl, by decide, by decide, rfl⟩

/-- C2 witness: the amended statement at the concrete c2Grid instance
with the identity TSP model. -/
theorem C2_witness :
    get_optimal_path c2Grid tspIdentity (robot_start_state 1 1 .NORTH) 50
      = .ok ([robot_start_state 1 1 .NORTH], 0) :=
  C2_theorem c2Grid tspIdentity (robot_start_state 1 1 .NORTH) 50
    tspIdentity_contract (by decide)

/-- Symmetry invariant of the memoisation tables: costs are symmetric
and the two orientations of every stored path are reverses of each
other. -/
def SymTables (tb : Tables) : Prop :=
  (∀ a b : CellState, tb.cost_table (a, b) = tb.cost_table (b, a)) ∧
  (∀ (a b : CellState) (l : List Triple),
    tb.path_table (a, b) = some l → tb.path_table (b, a) = some l.reverse)

/-- The empty tables are symmetric. -/
theorem symTables_empty : SymTables emptyTables := by
  constructor
  · intro a b; rfl
  · intro a b l h; cases h

/-- The parent walk always starts at the queried state. -/
theorem walkParent_head (parent : Triple → Option Triple) (fuel : Nat)
    (p : Triple) : (walkParent parent fuel p).head? = some p := by
  cases fuel with
  | zero => rfl
  | succ k =>
      rw [walkParent]
      cases parent p with
      | none => rfl
      | some q => rfl

/-- C8: _record_path stores the cost symmetrically and the reversed
pose list under the swapped key, the stored (a, b) path ends at b's
triple and begins where the parent chain stops (the search start in an
A* run), and table symmetry is preserved — so it holds for every pair
ever inserted. -/
theorem C8_theorem (tb : Tables) (start end_ : CellState)
    (parent : Triple → Option Triple) (cost : Int) (fuel : Nat)
    (hsym : SymTables tb)
    (hse : start = end_ →
      parent (end_.x, end_.y, end_.direction) = none) :
    SymTables (record_path start end_ parent cost fuel tb) ∧
    (record_path start end_ parent cost fuel tb).cost_table (start, end_)
      = some cost ∧
    (record_path start end_ parent cost fuel tb).cost_table (end_, start)
      = some cost ∧
    (∃ l, (record_path start end_ parent cost fuel tb).path_table
        (start, end_) = some l ∧
      (record_path start end_ parent cost fuel tb).path_table (end_, start)
        = some l.reverse ∧
      l.getLast? = some (end_.x, end_.y, end_.direction) ∧
      l.head? = (walkParent parent fuel
        (end_.x, end_.y, end_.direction)).getLast?) := by
  by_cases heq : start = end_
  · subst heq
    have hwalk : walkParent parent fuel (start.x, start.y, start.direction)
        = [(start.x, start.y, start.direction)] := by
      cases fuel with
      | zero => rfl
      | succ k => rw [walkParent, hse rfl]
    refine ⟨⟨?_, ?_⟩, ?_, ?_, ?_⟩
    · intro a b
      simp only [record_path]
      by_cases hab : (a, b) = (start, start)
      · have hab2 : ((b, a) : CellState × CellState) = (start, start) := by
          simp_all [Prod.ext_iff]
        rw [if_pos (Or.inl hab), if_pos (Or.inl hab2)]
      · have hab2 : ¬(((b, a) : CellState × CellState) = (start, start)) := by
          intro hc
          exact hab (by simp_all [Prod.ext_iff])
        rw [if_neg (by simpa using hab), if_neg (by simpa using hab2)]
        exact hsym.1 a b
    · intro a b l hl
      simp only [record_path] at hl ⊢
      by_cases hab : (a, b) = (start, start)
      · have hba : (b, a) = (start, start) := by
          obtain ⟨h1, h2⟩ := Prod.mk.injEq .. ▸ hab
          simp_all [Prod.ext_iff]
        rw [if_pos hab] at hl
        rw [if_pos hba]
        rw [hwalk] at hl ⊢
        obtain rfl : l = [(start.x, start.y, start.direction)] := by
          simpa using hl.symm
        rfl
      · have hba : ¬((b, a) = (start, start)) := by
          intro hc
          exact hab (by simp_all [Prod.ext_iff])
        rw [if_neg hab, if_neg hab] at hl
        rw [if_neg hba, if_neg hba]
        exact hsym.2 a b l hl
    · simp [record_path]
    · simp [record_path]
    · refine ⟨[(start.x, start.y, start.direction)], ?_, ?_, ?_, ?_⟩
      · simp [record_path, hwalk]
      · simp [record_path, hwalk]
      · rfl
      · rw [hwalk]
        rfl
  · have hne1 : ((start, end_) : CellState × CellState) ≠ (end_, start) := by
      simp [Prod.ext_iff]
      intro h
      exact absurd h heq
    refine ⟨⟨?_, ?_⟩, ?_, ?_, ?_⟩
    · intro a b
      simp only [record_path]
      by_cases h1 : ((a, b) = (start, end_) ∨ (a, b) = (end_, start))
      · have h2 : ((b, a) = (start, end_) ∨ (b, a) = (end_, start)) := by
          rcases h1 with h | h
          · right
            simp_all [Prod.ext_iff]
          · left
            simp_all [Prod.ext_iff]
        rw [if_pos h1, if_pos h2]
      · have h2 : ¬((b, a) = (start, end_) ∨ (b, a) = (end_, start)) := by
          intro hc
          rcases hc with h | h
          · exact h1 (Or.inr (by simp_all [Prod.ext_iff]))
          · exact h1 (Or.inl (by simp_all [Prod.ext_iff]))
        rw [if_neg h1, if_neg h2]
        exact hsym.1 a b
    · intro a b l hl
      simp only [record_path] at hl ⊢
      by_cases hES : (a, b) = (end_, start)
      · rw [if_pos hES] at hl
        have hba : ((b, a) : CellState × CellState) = (start, end_) := by
          simp_all [Prod.ext_iff]
        rw [if_neg (hba ▸ hne1), if_pos hba]
        obtain rfl : walkParent parent fuel
            (end_.x, end_.y, end_.direction) = l := by
          simpa using hl
        rfl
      · rw [if_neg hES] at hl
        by_cases hSE : (a, b) = (start, end_)
        · rw [if_pos hSE] at hl
          have hba : ((b, a) : CellState × CellState) = (end_, start) := by
            simp_all [Prod.ext_iff]
          rw [if_pos hba]
          obtain rfl : (walkParent parent fuel
              (end_.x, end_.y, end_.direction)).reverse = l := by
            simpa using hl
          simp
        · have hba1 : ¬((b, a) = (end_, start)) := by
            intro hc
            exact hSE (by simp_all [Prod.ext_iff])
          have hba2 : ¬((b, a) = (start, end_)) := by
            intro hc
            exact hES (by simp_all [Prod.ext_iff])
          rw [if_neg hSE] at hl
          rw [if_neg hba1, if_neg hba2]
          exact hsym.2 a b l hl
    · simp [record_path]
    · simp [record_path]
    · refine ⟨(walkParent parent fuel
        (end_.x, end_.y, end_.direction)).reverse, ?_, ?_, ?_, ?_⟩
      · simp only [record_path]
        rw [if_neg hne1]
        simp
      · simp only [record_path]
        simp [List.reverse_reverse]
      · rw [List.getLast?_reverse]
        exact walkParent_head parent fuel _
      · rw [List.head?_reverse]

/-- A concrete one-step parent map for instantiating the record-path
facts. -/
def c8Parent : Triple → Option Triple :=
  fun t => if t = ((2 : Int), (2 : Int), Direction.EAST) then
    some ((1 : Int), (1 : Int), Direction.NORTH) else none

/-- C8 witness: the symmetric record at a concrete pair over the empty
tables. -/
theorem C8_witness :
    SymTables (record_path (robot_start_state 1 1 .NORTH)
      (robot_start_state 2 2 .EAST) c8Parent 7 3 emptyTables) ∧
    (record_path (robot_start_state 1 1 .NORTH) (robot_start_state 2 2 .EAST)
      c8Parent 7 3 emptyTables).cost_table
        (robot_start_state 1 1 .NORTH, robot_start_state 2 2 .EAST)
      = some 7 ∧
    (record_path (robot_start_state 1 1 .NORTH) (robot_start_state 2 2 .EAST)
      c8Parent 7 3 emptyTables).cost_table
        (robot_start_state 2 2 .EAST, robot_start_state 1 1 .NORTH)
      = some 7 ∧
    (∃ l, (record_path (robot_start_state 1 1 .NORTH)
        (robot_start_state 2 2 .EAST) c8Parent 7 3 emptyTables).path_table
          (robot_start_state 1 1 .NORTH, robot_start_state 2 2 .EAST)
        = some l ∧
      (record_path (robot_start_state 1 1 .NORTH)
        (robot_start_state 2 2 .EAST) c8Parent 7 3 emptyTables).path_table
          (robot_start_state 2 2 .EAST, robot_start_state 1 1 .NORTH)
        = some l.reverse ∧
      l.getLast? = some ((robot_start_state 2 2 .EAST).x,
        (robot_start_state 2 2 .EAST).y,
        (robot_start_state 2 2 .EAST).direction) ∧
      l.head? = (walkParent c8Parent 3 ((robot_start_state 2 2 .EAST).x,
        (robot_start_state 2 2 .EAST).y,
        (robot_start_state 2 2 .EAST).direction)).getLast?) :=
  C8_theorem emptyTables (robot_start_state 1 1 .NORTH)
    (robot_start_state 2 2 .EAST) c8Parent 7 3 symTables_empty
    (fun h => absurd h (by decide))

/-- The interior states of a grid together with one designated extra
state (the search start, which need not be interior). -/
def stateSpace (g : Grid) (s : Triple) : Finset Triple :=
  insert s ((Finset.Ioo (0 : Int) (g.size_x - 1)) ×ˢ
    ((Finset.Ioo (0 : Int) (g.size_y - 1)) ×ˢ
      (Finset.univ : Finset Direction)))

/-- Valid coordinates are in the interior product. -/
theorem mem_stateSpace_of_valid (g : Grid) (s : Triple) (x y : Int)
    (d : Direction) (h : g.is_valid_coord x y = true) :
    ((x, y, d) : Triple) ∈ stateSpace g s := by
  simp only [Grid.is_valid_coord, Bool.and_eq_true, decide_eq_true_eq] at h
  simp only [stateSpace, Finset.mem_insert, Finset.mem_product,
    Finset.mem_Ioo, Finset.mem_univ]
  exact Or.inr ⟨⟨h.1.1.1, h.1.1.2⟩, ⟨h.1.2, h.2⟩, trivial⟩

/-- reachable implies valid coordinates. -/
theorem valid_of_reachable (g : Grid) (x y : Int)
    (h : g.reachable x y = true) : g.is_valid_coord x y = true := by
  rw [Grid.reachable] at h
  by_cases hv : g.is_valid_coord x y = true
  · exact hv
  · rw [if_pos (by simpa using hv)] at h
    cases h

/-- turn_reachable implies both endpoints have valid coordinates. -/
theorem valid_of_turn_reachable (g : Grid) (x y nx ny : Int) (d : Direction)
    (h : g.turn_reachable x y nx ny d = true) :
    g.is_valid_coord x y = true ∧ g.is_valid_coord nx ny = true := by
  rw [Grid.turn_reachable] at h
  by_cases hv : (!g.is_valid_coord x y || !g.is_valid_coord nx ny) = true
  · rw [if_pos hv] at h
    cases h
  · simp only [Bool.or_eq_true, Bool.not_eq_true'] at hv
    push_neg at hv
    exact ⟨by simpa using hv.1, by simpa using hv.2⟩

/-- Every neighbour produced by the enumeration has valid (interior)
coordinates. -/
theorem neighbors_valid (g : Grid) (x y : Int) (d : Direction) :
    ∀ nb ∈ get_neighboring_states g x y d,
      g.is_valid_coord nb.1 nb.2.1 = true := by
  intro nb hnb
  simp only [get_neighboring_states, List.mem_flatMap] at hnb
  obtain ⟨m, _, hnb⟩ := hnb
  split at hnb
  · rcases List.mem_append.1 hnb with hmem | hmem
    · split at hmem
      · rename_i hre
        rcases List.mem_singleton.1 hmem with rfl
        exact valid_of_reachable g _ _ hre
      · cases hmem
    · split at hmem
      · rename_i hre
        rcases List.mem_singleton.1 hmem with rfl
        exact valid_of_reachable g _ _ hre
      · cases hmem
  · rcases List.mem_filterMap.1 hnb with ⟨c, _, hcond⟩
    split at hcond
    · rename_i htr
      rcases Option.some.injEq .. ▸ hcond with rfl
      exact (valid_of_turn_reachable g _ _ _ _ _ htr).2
    · cases hcond

/-- The element extracted by popMin is a member, and the remainder is
the erase. -/
theorem popMin_spec {heap : List (Int × Int × Int × Direction)}
    {m : Int × Int × Int × Direction}
    {rest : List (Int × Int × Int × Direction)}
    (h : popMin heap = some (m, rest)) :
    m ∈ heap ∧ rest = heap.erase m := by
  cases heap with
  | nil => cases h
  | cons e t =>
      rw [popMin] at h
      have hmem : ∀ (l : List (Int × Int × Int × Direction)) a,
          l.foldl (fun acc x => if heapLe acc x then acc else x) a ∈ a :: l := by
        intro l
        induction l with
        | nil => intro a; simp
        | cons b u ih =>
            intro a
            rw [List.foldl_cons]
            by_cases hc : heapLe a b = true
            · rw [if_pos hc]
              rcases List.mem_cons.1 (ih a) with h2 | h2
              · simp [h2]
              · simp [List.mem_cons, h2]
            · rw [if_neg hc]
              rcases List.mem_cons.1 (ih b) with h2 | h2
              · simp [h2]
              · simp [List.mem_cons, h2]
      have h2 : ((t.foldl (fun acc x => if heapLe acc x then acc else x) e),
          ((e :: t).erase
            (t.foldl (fun acc x => if heapLe acc x then acc else x) e)))
          = (m, rest) := by
        simpa using h
      cases h2
      exact ⟨hmem t e, rfl⟩

/-- One relaxation either leaves the heap alone or appends exactly one
entry for the neighbour's state. -/
theorem relaxNeighbor_heap (end_ : CellState) (x y : Int) (d : Direction)
    (dist : Int) (visited : Finset Triple)
    (acc : List (Int × Int × Int × Direction) × (Triple → Option Int) ×
      (Triple → Option Triple) × (Triple × Triple → Option Motion))
    (nb : Int × Int × Direction × Int × Motion) :
    (relaxNeighbor end_ x y d dist visited acc nb).1 = acc.1 ∨
    ∃ c : Int, (relaxNeighbor end_ x y d dist visited acc nb).1
      = acc.1 ++ [(c, nb.1, nb.2.1, nb.2.2.1)] := by
  rw [relaxNeighbor]
  split
  · exact Or.inl rfl
  · simp only []
    split
    all_goals split
    all_goals first
      | exact Or.inl rfl
      | exact Or.inr ⟨_, rfl⟩

/-- The relaxation fold only ever adds heap entries whose state is a
produced neighbour. -/
theorem relaxFold_heap (end_ : CellState) (x y : Int) (d : Direction)
    (dist : Int) (visited : Finset Triple) (Q : Triple → Prop) :
    ∀ (nbs : List (Int × Int × Direction × Int × Motion))
      (acc : List (Int × Int × Int × Direction) × (Triple → Option Int) ×
        (Triple → Option Triple) × (Triple × Triple → Option Motion)),
      (∀ e ∈ acc.1, Q e.2) →
      (∀ nb ∈ nbs, Q (nb.1, nb.2.1, nb.2.2.1)) →
      ∀ e ∈ (nbs.foldl (relaxNeighbor end_ x y d dist visited) acc).1, Q e.2 := by
  intro nbs
  induction nbs with
  | nil => intro acc hacc _ e he; exact hacc e he
  | cons nb t ih =>
      intro acc hacc hnbs e he
      rw [List.foldl_cons] at he
      refine ih (relaxNeighbor end_ x y d dist visited acc nb) ?_
        (fun b hb => hnbs b (List.mem_cons_of_mem nb hb)) e he
      intro e2 he2
      rcases relaxNeighbor_heap end_ x y d dist visited acc nb with h1 | ⟨c, h1⟩
      · exact hacc e2 (h1 ▸ he2)
      · rw [h1] at he2
        rcases List.mem_append.1 he2 with h2 | h2
        · exact hacc e2 h2
        · rcases List.mem_singleton.1 h2 with rfl
          exact hnbs nb (List.mem_cons_self nb t)

/-- C10: the A* loop always terminates: for every grid, start and end
state, loop state whose heap entries lie in the finite state space
(interior states plus the search start) and tables, some finite fuel
reaches a natural exit — each expansion moves a new state into the
visited set of the finite space, and pops without expansion shrink the
heap. -/
theorem C10_theorem (g : Grid) (start end_ : CellState)
    (st : AStarSt) (tb : Tables)
    (hheap : ∀ e ∈ st.heap,
      e.2 ∈ stateSpace g (start.x, start.y, start.direction)) :
    ∃ n, (astarLoop g start end_ n st tb).isSome := by
  set S := stateSpace g (start.x, start.y, start.direction) with hS
  have main : ∀ (v hl : Nat) (st : AStarSt) (tb : Tables),
      (∀ e ∈ st.heap, e.2 ∈ S) →
      S.card - (st.visited ∩ S).card ≤ v →
      st.heap.length ≤ hl →
      ∃ n, (astarLoop g start end_ n st tb).isSome := by
    intro v
    induction v using Nat.strong_induction_on with
    | _ v ihv =>
      intro hl
      induction hl with
      | zero =>
          intro st tb hh hv hlen
          have hnil : st.heap = [] := List.eq_nil_of_length_eq_zero
            (Nat.le_zero.1 hlen)
          refine ⟨1, ?_⟩
          have hpop : popMin st.heap = none := by rw [hnil]; rfl
          simp [astarLoop, hpop]
      | succ hl ihl =>
          intro st tb hh hv hlen
          cases hpop : popMin st.heap with
          | none =>
              refine ⟨1, ?_⟩
              simp [astarLoop, hpop]
          | some pr =>
              obtain ⟨m, rest⟩ := pr
              obtain ⟨hm, hrest⟩ := popMin_spec hpop
              have hlrest : rest.length ≤ hl := by
                rw [hrest, List.length_erase_of_mem hm]
                omega
              by_cases hvis : (m.2.1, m.2.2.1, m.2.2.2) ∈ st.visited
              · obtain ⟨n, hn⟩ := ihl { st with heap := rest } tb
                  (fun e he => hh e (hrest ▸ he |> List.mem_of_mem_erase))
                  hv hlrest
                refine ⟨n + 1, ?_⟩
                simpa [astarLoop, hpop, hvis] using hn
              · by_cases hgoal : end_.is_eq m.2.1 m.2.2.1 m.2.2.2 = true
                · refine ⟨1, ?_⟩
                  simp [astarLoop, hpop, hvis, hgoal]
                · have hmS : m.2 ∈ S := hh m hm
                  cases v with
                  | zero =>
                      exfalso
                      have hsub : st.visited ∩ S ⊆ S := Finset.inter_subset_right
                      have hcard : S.card ≤ (st.visited ∩ S).card := by omega
                      have heq := Finset.eq_of_subset_of_card_le hsub hcard
                      have : m.2 ∈ st.visited ∩ S := heq.symm ▸ hmS
                      exact hvis (by simpa using (Finset.mem_inter.1 this).1)
                  | succ v2 =>
                      set visited2 := insert
                        (m.2.1, m.2.2.1, m.2.2.2) st.visited with hv2
                      set res := (get_neighboring_states g m.2.1 m.2.2.1
                          m.2.2.2).foldl
                        (relaxNeighbor end_ m.2.1 m.2.2.1 m.2.2.2
                          ((st.g_dist (m.2.1, m.2.2.1, m.2.2.2)).getD 0)
                          visited2)
                        (rest, st.g_dist, st.parent, tb.motion_table)
                        with hres
                      have hheap2 : ∀ e ∈ res.1, e.2 ∈ S := by
                        rw [hres]
                        refine relaxFold_heap end_ m.2.1 m.2.2.1 m.2.2.2
                          ((st.g_dist (m.2.1, m.2.2.1, m.2.2.2)).getD 0)
                          visited2 (fun t => t ∈ S) _ _ ?_ ?_
                        · intro e he
                          exact hh e (hrest ▸ he |> List.mem_of_mem_erase)
                        · intro nb hnb
                          exact mem_stateSpace_of_valid g _ nb.1 nb.2.1
                            nb.2.2.1 (neighbors_valid g m.2.1 m.2.2.1
                              m.2.2.2 nb hnb)
                      have hvcard : S.card - (visited2 ∩ S).card ≤ v2 := by
                        have hmm : (m.2.1, m.2.2.1, m.2.2.2) ∈ S := hmS
                        have hnotin : (m.2.1, m.2.2.1, m.2.2.2) ∉
                            st.visited ∩ S := by
                          intro hc
                          exact hvis (Finset.mem_inter.1 hc).1
                        have hins : visited2 ∩ S
                            = insert (m.2.1, m.2.2.1, m.2.2.2)
                              (st.visited ∩ S) := by
                          rw [hv2, Finset.insert_inter_of_mem hmm]
                        have hcard2 : (visited2 ∩ S).card
                            = (st.visited ∩ S).card + 1 := by
                          rw [hins, Finset.card_insert_of_not_mem hnotin]
                        omega
                      obtain ⟨n, hn⟩ := ihv v2 (by omega) res.1.length
                        { heap := res.1, visited := visited2,
                          g_dist := res.2.1, parent := res.2.2.1 }
                        { tb with motion_table := res.2.2.2 }
                        hheap2 hvcard (le_refl _)
                      refine ⟨n + 1, ?_⟩
                      simpa [astarLoop, hpop, hvis, hgoal, ← hv2, ← hres]
                        using hn
  exact main (S.card - (st.visited ∩ S).card) st.heap.length st tb hheap
    (le_refl _) (le_refl _)

/-- The termination theorem instantiated at the initial loop state of an
A* search from (1, 1, NORTH) towards (5, 5, NORTH) on the empty grid. -/
theorem C10_witness :
    ∃ n, (astarLoop emptyGrid (robot_start_state 1 1 .NORTH)
      (robot_start_state 5 5 .NORTH) n
      { heap := [(estimate_distance (robot_start_state 1 1 .NORTH)
          (robot_start_state 5 5 .NORTH), 1, 1, Direction.NORTH)],
        visited := ∅,
        g_dist := fun t =>
          if t = (1, 1, Direction.NORTH) then some 0 else none,
        parent := fun _ => none } emptyTables).isSome := by
  refine C10_theorem emptyGrid (robot_start_state 1 1 .NORTH)
    (robot_start_state 5 5 .NORTH) _ emptyTables ?_
  intro e he
  rcases List.mem_singleton.1 he with rfl
  exact Finset.mem_insert_self _ _

/-- A triple lies in the strict interior of the 20x20 grid. -/
def interiorT (t : Triple) : Prop :=
  (1 ≤ t.1 ∧ t.1 ≤ 18) ∧ (1 ≤ t.2.1 ∧ t.2.1 ≤ 18)

/-- A cell state lies in the strict interior of the 20x20 grid. -/
def interiorC (c : CellState) : Prop :=
  (1 ≤ c.x ∧ c.x ≤ 18) ∧ (1 ≤ c.y ∧ c.y ≤ 18)

/-- Every pose list stored in the path table consists of interior
triples. -/
def PTInvI (tb : Tables) : Prop :=
  ∀ k l, tb.path_table k = some l → ∀ t ∈ l, interiorT t

/-- On a 20x20 grid, valid coordinates are exactly the interior. -/
theorem interior_of_valid (g : Grid) (hgx : g.size_x = 20)
    (hgy : g.size_y = 20) (x y : Int)
    (h : g.is_valid_coord x y = true) :
    (1 ≤ x ∧ x ≤ 18) ∧ (1 ≤ y ∧ y ≤ 18) := by
  simp only [Grid.is_valid_coord, hgx, hgy, Bool.and_eq_true,
    decide_eq_true_eq] at h
  omega

/-- One relaxation writes at most the expanded state into the parent
map; every other parent value is inherited. -/
theorem relaxNeighbor_parent (end_ : CellState) (x y : Int) (d : Direction)
    (dist : Int) (visited : Finset Triple)
    (acc : List (Int × Int × Int × Direction) × (Triple → Option Int) ×
      (Triple → Option Triple) × (Triple × Triple → Option Motion))
    (nb : Int × Int × Direction × Int × Motion) (t q : Triple)
    (h : (relaxNeighbor end_ x y d dist visited acc nb).2.2.1 t = some q) :
    q = (x, y, d) ∨ acc.2.2.1 t = some q := by
  rw [relaxNeighbor] at h
  split at h
  · exact Or.inr h
  · simp only [] at h
    split at h
    all_goals split at h
    all_goals simp only [] at h
    all_goals first
      | exact Or.inr h
      | (split at h
         <;> first
           | exact Or.inr h
           | exact Or.inl (Option.some.inj h).symm)

/-- The relaxation fold preserves a property of all parent values,
provided the expanded state satisfies it. -/
theorem relaxFold_parent (end_ : CellState) (x y : Int) (d : Direction)
    (dist : Int) (visited : Finset Triple) (Q : Triple → Prop)
    (hQ : Q (x, y, d)) :
    ∀ (nbs : List (Int × Int × Direction × Int × Motion))
      (acc : List (Int × Int × Int × Direction) × (Triple → Option Int) ×
        (Triple → Option Triple) × (Triple × Triple → Option Motion)),
      (∀ t q, acc.2.2.1 t = some q → Q q) →
      ∀ t q, (nbs.foldl (relaxNeighbor end_ x y d dist visited) acc).2.2.1 t
        = some q → Q q := by
  intro nbs
  induction nbs with
  | nil => intro acc hacc t q h; exact hacc t q h
  | cons nb tl ih =>
      intro acc hacc t q h
      rw [List.foldl_cons] at h
      refine ih (relaxNeighbor end_ x y d dist visited acc nb) ?_ t q h
      intro t2 q2 h2
      rcases relaxNeighbor_parent end_ x y d dist visited acc nb t2 q2 h2
        with h3 | h3
      · exact h3 ▸ hQ
      · exact hacc t2 q2 h3

/-- Every triple on a parent walk satisfies a property that the start
and all parent values satisfy. -/
theorem walkParent_interior (parent : Triple → Option Triple)
    (Q : Triple → Prop) (hpar : ∀ t q, parent t = some q → Q q) :
    ∀ (fuel : Nat) (p : Triple), Q p →
      ∀ t ∈ walkParent parent fuel p, Q t := by
  intro fuel
  induction fuel with
  | zero =>
      intro p hp t ht
      rcases List.mem_singleton.1 ht with rfl
      exact hp
  | succ f ih =>
      intro p hp t ht
      cases hq : parent p with
      | none =>
          simp only [walkParent, hq] at ht
          rcases List.mem_singleton.1 ht with rfl
          exact hp
      | some q =>
          simp only [walkParent, hq] at ht
          rcases List.mem_cons.1 ht with rfl | ht2
          · exact hp
          · exact ih q (hpar p q hq) t ht2

/-- Recording a path whose walk stays interior preserves the path-table
interior invariant. -/
theorem record_path_PTInv (start end_ : CellState)
    (parent : Triple → Option Triple) (cost : Int) (fuel : Nat)
    (tb : Tables) (htb : PTInvI tb)
    (hpar : ∀ t q, parent t = some q → interiorT q)
    (hend : interiorT (end_.x, end_.y, end_.direction)) :
    PTInvI (record_path start end_ parent cost fuel tb) := by
  intro k l h t ht
  rw [record_path] at h
  simp only [] at h
  split at h
  · rcases Option.some.inj h with rfl
    exact walkParent_interior _ _ hpar fuel _ hend t ht
  · split at h
    · rcases Option.some.inj h with rfl
      exact walkParent_interior _ _ hpar fuel _ hend t
        (List.mem_reverse.1 ht)
    · exact htb k l h t ht

/-- The A* loop preserves the path-table interior invariant: every table
returned at a natural exit stores only interior pose lists, provided all
heap states and parent values are interior and the goal is interior. -/
theorem astarLoop_PTInv (g : Grid) (start end_ : CellState)
    (hgx : g.size_x = 20) (hgy : g.size_y = 20)
    (hend : interiorT (end_.x, end_.y, end_.direction)) :
    ∀ (fuel : Nat) (st : AStarSt) (tb : Tables),
      (∀ e ∈ st.heap, interiorT e.2) →
      (∀ t q, st.parent t = some q → interiorT q) →
      PTInvI tb →
      ∀ tb2, astarLoop g start end_ fuel st tb = some tb2 → PTInvI tb2 := by
  intro fuel
  induction fuel with
  | zero => intro st tb _ _ _ tb2 h; cases h
  | succ f ih =>
      intro st tb hheap hpar htb tb2 h
      cases hpop : popMin st.heap with
      | none =>
          simp only [astarLoop, hpop] at h
          rcases Option.some.inj h with rfl
          exact htb
      | some pr =>
          obtain ⟨m, rest⟩ := pr
          obtain ⟨hm, hrest⟩ := popMin_spec hpop
          by_cases hvis : (m.2.1, m.2.2.1, m.2.2.2) ∈ st.visited
          · simp only [astarLoop, hpop, hvis, if_pos] at h
            exact ih { st with heap := rest } tb
              (fun e he => hheap e (hrest ▸ he |> List.mem_of_mem_erase))
              hpar htb tb2 h
          · by_cases hgoal : end_.is_eq m.2.1 m.2.2.1 m.2.2.2 = true
            · simp only [astarLoop, hpop, hvis, hgoal] at h
              rcases Option.some.inj h with rfl
              exact record_path_PTInv start end_ st.parent _ _ tb htb hpar hend
            · simp only [astarLoop, hpop, hvis, hgoal] at h
              refine ih _ _ ?_ ?_ ?_ tb2 h
              · refine relaxFold_heap end_ m.2.1 m.2.2.1 m.2.2.2
                  ((st.g_dist (m.2.1, m.2.2.1, m.2.2.2)).getD 0)
                  (insert (m.2.1, m.2.2.1, m.2.2.2) st.visited)
                  interiorT _ _ ?_ ?_
                · intro e he
                  exact hheap e (hrest ▸ he |> List.mem_of_mem_erase)
                · intro nb hnb
                  exact interior_of_valid g hgx hgy nb.1 nb.2.1
                    (neighbors_valid g m.2.1 m.2.2.1 m.2.2.2 nb hnb)
              · refine relaxFold_parent end_ m.2.1 m.2.2.1 m.2.2.2
                  ((st.g_dist (m.2.1, m.2.2.1, m.2.2.2)).getD 0)
                  (insert (m.2.1, m.2.2.1, m.2.2.2) st.visited)
                  interiorT (hheap m hm) _ _ hpar
              · exact htb
  
/-- A single memoising A* search preserves the path-table interior
invariant when both endpoints are interior. -/
theorem astar_search_PTInv (g : Grid) (hgx : g.size_x = 20)
    (hgy : g.size_y = 20) (fuel : Nat) (tb : Tables)
    (start end_ : CellState)
    (hs : interiorT (start.x, start.y, start.direction))
    (he : interiorT (end_.x, end_.y, end_.direction))
    (htb : PTInvI tb) :
    PTInvI (astar_search g fuel tb start end_) := by
  rw [astar_search]
  split
  · exact htb
  · simp only []
    cases hres : astarLoop g start end_ fuel
        { heap := [(estimate_distance start end_, start.x, start.y,
            start.direction)],
          visited := ∅,
          g_dist := fun t =>
            if t = (start.x, start.y, start.direction) then some 0 else none,
          parent := fun _ => none } tb with
    | none => simp only [hres]; exact htb
    | some tb2 =>
        simp only [hres]
        refine astarLoop_PTInv g start end_ hgx hgy he fuel _ tb ?_ ?_ htb
          tb2 hres
        · intro e he2
          rcases List.mem_singleton.1 he2 with rfl
          exact hs
        · intro t q hq
          cases hq

/-- Both components of a pair produced by pairsUpper are members of the
input list. -/
theorem pairsUpper_mem : ∀ (l : List α) (p : α × α),
    p ∈ pairsUpper l → p.1 ∈ l ∧ p.2 ∈ l := by
  intro l
  induction l with
  | nil => intro p hp; cases hp
  | cons a t ih =>
      intro p hp
      rw [pairsUpper] at hp
      rcases List.mem_append.1 hp with h | h
      · rcases List.mem_map.1 h with ⟨b, hb, rfl⟩
        exact ⟨List.mem_cons_self a t, List.mem_cons_of_mem a hb⟩
      · obtain ⟨h1, h2⟩ := ih p h
        exact ⟨List.mem_cons_of_mem a h1, List.mem_cons_of_mem a h2⟩

/-- Generating all pairwise paths between interior states preserves the
path-table interior invariant. -/
theorem generate_paths_PTInv (g : Grid) (hgx : g.size_x = 20)
    (hgy : g.size_y = 20) (fuel : Nat) (states : List CellState)
    (tb : Tables)
    (hstates : ∀ s ∈ states, interiorT (s.x, s.y, s.direction))
    (htb : PTInvI tb) :
    PTInvI (generate_paths g fuel states tb) := by
  rw [generate_paths]
  have hp : ∀ p ∈ pairsUpper states,
      interiorT (p.1.x, p.1.y, p.1.direction) ∧
      interiorT (p.2.x, p.2.y, p.2.direction) := by
    intro p hp0
    obtain ⟨h1, h2⟩ := pairsUpper_mem states p hp0
    exact ⟨hstates p.1 h1, hstates p.2 h2⟩
  have main : ∀ (ps : List (CellState × CellState)) (tb : Tables),
      (∀ p ∈ ps, interiorT (p.1.x, p.1.y, p.1.direction) ∧
        interiorT (p.2.x, p.2.y, p.2.direction)) →
      PTInvI tb →
      PTInvI (ps.foldl (fun t p => astar_search g fuel t p.1 p.2) tb) := by
    intro ps
    induction ps with
    | nil => intro tb0 _ htb0; exact htb0
    | cons q t ih =>
        intro tb0 hp0 htb0
        rw [List.foldl_cons]
        refine ih _ (fun p hp2 => hp0 p (List.mem_cons_of_mem q hp2)) ?_
        exact astar_search_PTInv g hgx hgy fuel tb0 q.1 q.2
          (hp0 q (List.mem_cons_self q t)).1
          (hp0 q (List.mem_cons_self q t)).2 htb0
  exact main (pairsUpper states) tb hp htb

/-- Every candidate viewpoint survives the reachability filter and is
therefore interior on a 20x20 grid. -/
theorem views_interior (g : Grid) (hgx : g.size_x = 20)
    (hgy : g.size_y = 20) :
    ∀ l ∈ g.get_view_obstacle_positions, ∀ c ∈ l, interiorC c := by
  intro l hl c hc
  rw [Grid.get_view_obstacle_positions] at hl
  rcases List.mem_map.1 hl with ⟨ob, _, rfl⟩
  obtain ⟨_, hre⟩ := List.mem_filter.1 hc
  exact interior_of_valid g hgx hgy c.x c.y
    (valid_of_reachable g c.x c.y hre)

/-- One leg stitch keeps the accumulated path interior: the appended
sub-path comes from an interior path table, and the screenshot re-tag
does not move the pose. -/
theorem stitchLeg_interior (grid : Grid) (tb : Tables)
    (visit_states : List CellState) (visited perm : List Nat)
    (path : List CellState) (idx : Nat) (path2 : List CellState)
    (htb : PTInvI tb) (hpath : ∀ c ∈ path, interiorC c)
    (h : stitchLeg grid tb visit_states visited perm path idx = .ok path2) :
    ∀ c ∈ path2, interiorC c := by
  simp only [stitchLeg] at h
  split at h
  · cases h
  · rename_i current_path heq
    have hall : ∀ c ∈ path ++ current_path.tail.map
        (fun t => { x := t.1, y := t.2.1, direction := t.2.2 : CellState }),
        interiorC c := by
      intro c hc
      rcases List.mem_append.1 hc with h2 | h2
      · exact hpath c h2
      · rcases List.mem_map.1 h2 with ⟨t, ht, rfl⟩
        exact htb _ _ heq t (List.mem_of_mem_tail ht)
    split at h
    · split at h
      · split at h
        · rename_i lastp hlast
          split at h
          · rcases Except.ok.inj h with rfl
            intro c hc
            rcases List.mem_append.1 hc with h2 | h2
            · exact hall c (List.dropLast_subset _ h2)
            · rcases List.mem_singleton.1 h2 with rfl
              exact hall lastp (List.mem_of_mem_getLast? hlast)
          · cases h
        · cases h
      · cases h
    · cases h

/-- The stitch fold over the winning permutation keeps every pose
interior. -/
theorem stitchFold_interior (grid : Grid) (tb : Tables)
    (visit_states : List CellState) (visited perm : List Nat)
    (htb : PTInvI tb) :
    ∀ (idxs : List Nat) (path0 res : List CellState),
      (∀ c ∈ path0, interiorC c) →
      idxs.foldlM (stitchLeg grid tb visit_states visited perm) path0
        = .ok res →
      ∀ c ∈ res, interiorC c := by
  intro idxs
  induction idxs with
  | nil =>
      intro path0 res h0 h
      rcases Except.ok.inj h with rfl
      exact h0
  | cons i t ih =>
      intro path0 res h0 h
      rw [List.foldlM_cons] at h
      cases hstep : stitchLeg grid tb visit_states visited perm path0 i with
      | error e => rw [hstep] at h; cases h
      | ok p2 =>
          rw [hstep] at h
          exact ih p2 res
            (stitchLeg_interior grid tb visit_states visited perm path0 i p2
              htb h0 hstep) h

/-- Processing one combination leaves the tables untouched and, when the
head of visit_states is interior, keeps the optimal path interior. -/
theorem processCombination_interior (grid : Grid) (tsp : TspSolver)
    (visit_states : List CellState)
    (cur_view_positions : List (List CellState)) (comb : List Nat)
    (st st2 : SolveSt) (htb : PTInvI st.tables)
    (hstart : interiorC (visit_states.headD dfltCell))
    (hopt : ∀ c ∈ st.optimal_path, interiorC c)
    (h : processCombination grid tsp visit_states cur_view_positions comb st
      = .ok st2) :
    st2.tables = st.tables ∧ ∀ c ∈ st2.optimal_path, interiorC c := by
  simp only [processCombination] at h
  split at h
  · rcases Except.ok.inj h with rfl
    exact ⟨rfl, hopt⟩
  · split at h
    · cases h
    · rename_i newPath hfold
      rcases Except.ok.inj h with rfl
      refine ⟨rfl, ?_⟩
      refine stitchFold_interior grid st.tables visit_states _ _ htb _ _ _
        ?_ hfold
      intro c hc
      rcases List.mem_singleton.1 hc with rfl
      exact hstart

/-- The combination fold preserves the table invariant and path
interiority. -/
theorem combosFold_interior (grid : Grid) (tsp : TspSolver)
    (visit_states : List CellState)
    (cur_view_positions : List (List CellState))
    (hstart : interiorC (visit_states.headD dfltCell)) :
    ∀ (combos : List (List Nat)) (st st2 : SolveSt),
      PTInvI st.tables → (∀ c ∈ st.optimal_path, interiorC c) →
      combos.foldlM (fun s comb =>
        processCombination grid tsp visit_states cur_view_positions comb s)
        st = .ok st2 →
      PTInvI st2.tables ∧ ∀ c ∈ st2.optimal_path, interiorC c := by
  intro combos
  induction combos with
  | nil =>
      intro st st2 h1 h2 h
      rcases Except.ok.inj h with rfl
      exact ⟨h1, h2⟩
  | cons cb t ih =>
      intro st st2 h1 h2 h
      rw [List.foldlM_cons] at h
      cases hstep : processCombination grid tsp visit_states
          cur_view_positions cb st with
      | error e => rw [hstep] at h; cases h
      | ok stA =>
          rw [hstep] at h
          obtain ⟨hteq, hoptA⟩ := processCombination_interior grid tsp
            visit_states cur_view_positions cb st stA h1 hstart h2 hstep
          exact ih stA st2 (by rw [hteq]; exact h1) hoptA h

/-- One mask body preserves the table invariant and path interiority on
a 20x20 grid with an interior start. -/
theorem maskBody_interior (grid : Grid) (tsp : TspSolver) (start : CellState)
    (fuel : Nat) (bin_pos : List Char) (st st2 : SolveSt)
    (hgx : grid.size_x = 20) (hgy : grid.size_y = 20)
    (hstart : interiorC start)
    (htb : PTInvI st.tables) (hopt : ∀ c ∈ st.optimal_path, interiorC c)
    (h : maskBody grid tsp start fuel bin_pos st = .ok st2) :
    PTInvI st2.tables ∧ ∀ c ∈ st2.optimal_path, interiorC c := by
  simp only [maskBody] at h
  refine combosFold_interior grid tsp _ _ ?_ _ _ st2 ?_ ?_ h
  · exact hstart
  · refine generate_paths_PTInv grid hgx hgy fuel _ st.tables ?_ htb
    intro s hs
    rcases List.mem_cons.1 hs with rfl | hs2
    · exact hstart
    · rcases List.mem_flatten.1 hs2 with ⟨l2, hl2, hc⟩
      rcases List.mem_filterMap.1 hl2 with ⟨i, _, hcond⟩
      split at hcond
      · rcases Option.some.inj hcond with rfl
        rcases lt_or_ge i grid.get_view_obstacle_positions.length
          with hlt | hge
        · refine views_interior grid hgx hgy
            (grid.get_view_obstacle_positions.getD i []) ?_ s hc
          rw [List.getD_eq_getElem _ _ hlt]
          exact List.getElem_mem hlt
        · rw [List.getD_eq_default _ _ hge] at hc
          cases hc
      · cases hcond
  · exact hopt

/-- The subset-mask loop keeps every pose of the final optimal path
interior. -/
theorem visitLoop_interior (grid : Grid) (tsp : TspSolver)
    (start : CellState) (fuel : Nat)
    (hgx : grid.size_x = 20) (hgy : grid.size_y = 20)
    (hstart : interiorC start) :
    ∀ (masks : List (List Char)) (st st2 : SolveSt),
      PTInvI st.tables → (∀ c ∈ st.optimal_path, interiorC c) →
      visitLoop grid tsp start fuel masks st = .ok st2 →
      ∀ c ∈ st2.optimal_path, interiorC c := by
  intro masks
  induction masks with
  | nil =>
      intro st st2 _ h2 h
      rcases Except.ok.inj h with rfl
      exact h2
  | cons bp rest ih =>
      intro st st2 h1 h2 h
      cases hmb : maskBody grid tsp start fuel bp st with
      | error e =>
          simp only [visitLoop, hmb] at h
          exact Except.noConfusion h
      | ok stA =>
          simp only [visitLoop, hmb] at h
          obtain ⟨hA1, hA2⟩ := maskBody_interior grid tsp start fuel bp st
            stA hgx hgy hstart h1 h2 hmb
          split at h
          · rcases Except.ok.inj h with rfl
            exact hA2
          · exact ih { stA with processed := stA.processed ++ [bp] } st2
              hA1 hA2 h

/-- C3: counterexample — the request schema admits robot_x = 0 (it only
requires 0 <= robot_x < 20), and for the start pose (0, 1, EAST) on the
c2Grid scenario the solver returns the start pose verbatim as the whole
path, so the claimed bound 1 <= x fails at index 0. -/
theorem C3_counterexample :
    ((0 : Int) ≤ 0 ∧ (0 : Int) < 20 ∧ (0 : Int) ≤ 1 ∧ (1 : Int) < 20) ∧
    get_optimal_path c2Grid tspIdentity (robot_start_state 0 1 .EAST) 50
      = .ok ([robot_start_state 0 1 .EAST], 0) ∧
    ¬ (1 ≤ (robot_start_state 0 1 .EAST).x) :=
  ⟨by decide, by rfl, by decide⟩

/-- C3 (amended): on the 20x20 grid, when the start pose itself lies in
the strict interior (1 <= x <= 18 and 1 <= y <= 18), every pose of the
path returned by get_optimal_path — including the start pose at index
0 — satisfies 1 <= x <= 18 and 1 <= y <= 18; the unamended claim fails
for boundary starts, which the request schema admits and the solver
returns verbatim. -/
theorem C3_theorem (g : Grid) (tsp : TspSolver) (start : CellState)
    (fuel : Nat) (path : List CellState) (dist : Int)
    (hgx : g.size_x = 20) (hgy : g.size_y = 20)
    (hstart : (1 ≤ start.x ∧ start.x ≤ 18) ∧ (1 ≤ start.y ∧ start.y ≤ 18))
    (hrun : get_optimal_path g tsp start fuel = .ok (path, dist)) :
    ∀ c ∈ path, (1 ≤ c.x ∧ c.x ≤ 18) ∧ (1 ≤ c.y ∧ c.y ≤ 18) := by
  rw [get_optimal_path] at hrun
  cases hfull : get_optimal_path_full g tsp start fuel with
  | error e => rw [hfull] at hrun; exact Except.noConfusion hrun
  | ok st =>
      rw [hfull] at hrun
      have hEq : (st.optimal_path, st.min_dist) = (path, dist) :=
        Except.ok.inj hrun
      have hpath : st.optimal_path = path := congrArg Prod.fst hEq
      rw [← hpath]
      rw [get_optimal_path_full] at hfull
      exact visitLoop_interior g tsp start fuel hgx hgy hstart
        (get_visit_options g.get_view_obstacle_positions.length)
        { tables := emptyTables, optimal_path := [],
          min_dist := 1000000000, processed := [] }
        st (fun k l hl => Option.noConfusion hl) (fun c hc => absurd hc
          (List.not_mem_nil c)) hfull

/-- The interiority theorem applied to a concrete interior solve: on the
empty grid from the interior start (1, 1, NORTH) the returned path is
the start pose alone, and every pose is within the claimed bounds. -/
theorem C3_witness :
    (1 ≤ (robot_start_state 1 1 Direction.NORTH).x ∧
      (robot_start_state 1 1 Direction.NORTH).x ≤ 18) ∧
    (1 ≤ (robot_start_state 1 1 Direction.NORTH).y ∧
      (robot_start_state 1 1 Direction.NORTH).y ≤ 18) :=
  C3_theorem emptyGrid tspIdentity (robot_start_state 1 1 .NORTH) 50
    [robot_start_state 1 1 .NORTH] 0 rfl rfl (by decide) (by rfl)
    (robot_start_state 1 1 .NORTH) (List.mem_singleton.2 rfl)
